import Mathlib

/-!
Verification development for the `desktop_auto` repository.

This file gives a shallow embedding, in Lean, of the deterministic core of the
repository's Python code (`src/ai_analysis.py`, `src/main.py`,
`src/trading_analysis.py`, `src/utils.py`) and proves properties of that
embedding.  External effects (the Google AI model, the wall clock, the file
system, the random jitter) are passed in as explicit parameters or oracles, so
every definition is an executable Lean function translated from the Python
source.
-/

/-! ## Shared string helpers

Python string operations used by the embedded code, modelled on `List Char` /
`String`.  ASCII case mapping is used, matching the ASCII data these functions
are applied to. -/

/-- Model of Python `str.lower` (ASCII). -/
def strLower (s : String) : String := ⟨s.data.map Char.toLower⟩

/-- Model of Python `str.upper` (ASCII). -/
def strUpper (s : String) : String := ⟨s.data.map Char.toUpper⟩

/-- Substring test: `containsSub s pat` models Python `pat in s`. -/
def containsSub (s pat : String) : Bool :=
  go s.data
where
  go : List Char → Bool
    | [] => pat.data.isPrefixOf []
    | c :: rest => pat.data.isPrefixOf (c :: rest) || go rest

/-! ## C1: `GoogleAIAnalyzer._call_with_backoff` (src/ai_analysis.py lines 233-284)

The loop makes up to `max_attempts` calls to `self.model.generate_content`.
Each call either returns a response (from which a text is extracted, possibly
`None`) or raises an exception carrying an error message.  The environment is
modelled by an oracle giving the outcome of the k-th call and by the sequence
of jitter values drawn by `random.uniform(0, 1)`. -/

/-- Outcome of one `generate_content` call: a response whose extracted text is
`t : Option String` (line 247-257), or an exception with message `msg`. -/
inductive CallResult where
  | ok : Option String → CallResult
  | err : String → CallResult
deriving DecidableEq

/-- Keyword list from line 264-266 of `src/ai_analysis.py`. -/
def retryTerms : List String :=
  ["rate", "limit", "quota", "429", "503", "overloaded", "resource_exhausted"]

/-- Line 261-266: `error_str = str(e).lower()` then
`any(term in error_str for term in [...])`. -/
def isRetryableError (msg : String) : Bool :=
  retryTerms.any (fun t => containsSub (strLower msg) t)

/-- Observable trace of one `_call_with_backoff` run: the returned value, the
number of calls made to the model, and the list of sleep durations (seconds)
in order. -/
structure BackoffTrace where
  result : Option String
  calls : Nat
  sleeps : List ℚ
deriving DecidableEq

/-- Does this call outcome raise an exception? -/
def CallResult.isErr : CallResult → Bool
  | .ok _ => false
  | .err _ => true

/-- Value the function returns if this outcome is the last call: the extracted
text for a response, `None` for an exception. -/
def CallResult.value : CallResult → Option String
  | .ok t => t
  | .err _ => none

/-- Is this outcome an exception with a retryable (rate-limit) message? -/
def CallResult.retryable : CallResult → Bool
  | .ok _ => false
  | .err m => isRetryableError m

/-- The `for attempt in range(1, max_attempts + 1)` loop of
`_call_with_backoff`, beginning at attempt `attempt` with `fuel` loop
iterations remaining.  On a response the extracted text is returned at once
(lines 247-257).  On a retryable exception before the last attempt the loop
sleeps `base_delay * 2**(attempt-1) + jitter` and continues (lines 268-275);
on the last attempt it breaks and returns `None` (lines 276-284); on a
non-retryable exception before the last attempt the loop logs and continues
with the next attempt without sleeping (the `else` branch only breaks when
`attempt == max_attempts`). -/
def callBackoffAux (oracle : Nat → CallResult) (jitter : Nat → ℚ)
    (maxAttempts : Nat) (baseDelay : ℚ) : Nat → Nat → BackoffTrace
  | _, 0 => ⟨none, 0, []⟩
  | attempt, fuel + 1 =>
    match oracle attempt with
    | .ok t => ⟨t, 1, []⟩
    | .err msg =>
      if isRetryableError msg = true ∧ attempt < maxAttempts then
        let rest := callBackoffAux oracle jitter maxAttempts baseDelay (attempt + 1) fuel
        ⟨rest.result, rest.calls + 1,
          (baseDelay * 2 ^ (attempt - 1) + jitter attempt) :: rest.sleeps⟩
      else if attempt = maxAttempts then ⟨none, 1, []⟩
      else
        let rest := callBackoffAux oracle jitter maxAttempts baseDelay (attempt + 1) fuel
        ⟨rest.result, rest.calls + 1, rest.sleeps⟩

/-- `GoogleAIAnalyzer._call_with_backoff` (the loop starts at attempt 1 and
runs for at most `max_attempts` iterations). -/
def call_with_backoff (oracle : Nat → CallResult) (jitter : Nat → ℚ)
    (maxAttempts : Nat) (baseDelay : ℚ) : BackoffTrace :=
  callBackoffAux oracle jitter maxAttempts baseDelay 1 maxAttempts

/-- Concrete oracle for the C1 counterexample: the first call raises a
non-retryable error, every later call returns a text. -/
def backoffOracleCE : Nat → CallResult :=
  fun n => if n = 1 then .err "boom" else .ok (some "hi")

/-- Zero jitter for the C1 counterexample. -/
def backoffJitterCE : Nat → ℚ := fun _ => 0

/-- Oracle for the C1 witness: rate-limit error on the first call, success on
the second. -/
def backoffOracleW : Nat → CallResult :=
  fun n => if n = 1 then .err "429 rate limit" else .ok (some "ok")

/-! ## C6: `is_within_market_hours` (src/main.py lines 103-141) -/

/-- Environment observed by `is_within_market_hours`: the raw
`SCHEDULE_ENABLED` value (absent modelled as `none`), availability of `pytz`,
whether the timezone lookup and `datetime.now` succeed, the parse results of
`CAPTURE_START_TIME` / `CAPTURE_STOP_TIME` as `(hour, minute)` integers
(`none` when `map(int, s.split(':'))` itself raises, e.g. a non-numeric or
wrong-arity string; out-of-range integers such as `(25, 0)` parse fine and
only fail later in the `datetime.time` constructor), and the current local
time of day in seconds. -/
structure MarketHoursEnv where
  scheduleEnabled : Option String
  pytzAvailable : Bool
  timezoneOk : Bool
  startParse : Option (Int × Int)
  stopParse : Option (Int × Int)
  currentSecOfDay : ℚ

/-- The range check of the `datetime.time(hour, minute)` constructor: it
raises `ValueError` unless `0 <= hour <= 23` and `0 <= minute <= 59`. -/
def validTime (t : Int × Int) : Prop :=
  0 ≤ t.1 ∧ t.1 ≤ 23 ∧ 0 ≤ t.2 ∧ t.2 ≤ 59

instance (t : Int × Int) : Decidable (validTime t) :=
  inferInstanceAs (Decidable (0 ≤ t.1 ∧ t.1 ≤ 23 ∧ 0 ≤ t.2 ∧ t.2 ≤ 59))

/-- Seconds since midnight of a parsed `HH:MM` time (`datetime.time` with zero
seconds). -/
def timeToSec (t : Int × Int) : ℚ := (t.1 : ℚ) * 3600 + (t.2 : ℚ) * 60

/-- `is_within_market_hours` from `src/main.py`: returns `True` when
scheduling is disabled, `pytz` is unavailable, or any exception occurs while
checking — including the `ValueError` that `dt_time(start_hour, start_min)` /
`dt_time(stop_hour, stop_min)` raise on out-of-range values (lines 128-129,
caught at line 139); otherwise compares the current time of day against the
inclusive `[start, stop]` interval. -/
def is_within_market_hours (e : MarketHoursEnv) : Bool :=
  let scheduleOn := strLower (e.scheduleEnabled.getD "False") = "true"
  if ¬scheduleOn then true
  else if ¬e.pytzAvailable then true
  else if ¬e.timezoneOk then true
  else
    match e.startParse, e.stopParse with
    | some st, some sp =>
      if validTime st ∧ validTime sp then
        if timeToSec st ≤ e.currentSecOfDay ∧ e.currentSecOfDay ≤ timeToSec sp then true
        else false
      else true
    | _, _ => true

/-! ## C8: `TradingAnalyzer._parse_google_ai_email_decision`
(src/ai_analysis.py lines 1302-1382) -/

/-- Explicit YES/SEND patterns (lines 1317-1326). -/
def yesPatterns : List String :=
  ["EMAIL ALERT DECISION: YES", "EMAIL ALERT DECISION:YES", "SEND EMAIL ALERT",
   "EMAIL: YES", "ALERT: YES", "RECOMMENDATION: SEND EMAIL", "SHOULD SEND EMAIL",
   "ALERT RECOMMENDED"]

/-- Explicit NO patterns (lines 1329-1339). -/
def noPatterns : List String :=
  ["EMAIL ALERT DECISION: NO", "EMAIL ALERT DECISION:NO", "DO NOT SEND EMAIL",
   "DON\x27T SEND EMAIL", "EMAIL: NO", "ALERT: NO", "NO EMAIL NEEDED", "NOT ALERT",
   "NO ALERT NEEDED"]

/-- Bullish keyword list (line 1358). -/
def bullishKeywords : List String :=
  ["BUY", "STRONG BUY", "BULLISH", "UPTREND", "SIGNAL", "ALERT", "OPPORTUNITY",
   "REVERSAL UP", "BREAKOUT"]

/-- Bearish keyword list (line 1359). -/
def bearishKeywords : List String :=
  ["SELL", "STRONG SELL", "BEARISH", "DOWNTREND", "WARNING", "CAUTION",
   "REVERSAL DOWN", "BREAKDOWN"]

/-- `TradingAnalyzer._parse_google_ai_email_decision`: `None` or an empty
string yields `False`; explicit YES patterns are checked before explicit NO
patterns on the upper-cased text; otherwise keyword heuristics apply, and the
default is `False`. -/
def parse_google_ai_email_decision (tradingDecision : Option String) : Bool :=
  match tradingDecision with
  | none => false
  | some s =>
    if s = "" then false
    else
      let t := strUpper s
      if yesPatterns.any (fun p => containsSub t p) then true
      else if noPatterns.any (fun p => containsSub t p) then false
      else
        let bullishCount := (bullishKeywords.filter (fun k => containsSub t k)).length
        let bearishCount := (bearishKeywords.filter (fun k => containsSub t k)).length
        if (containsSub t "ALERT" || containsSub t "SIGNAL") &&
            decide (bearishCount < bullishCount) then true
        else if (containsSub t "WARNING" || containsSub t "CAUTION") &&
            decide (0 < bearishCount) then true
        else false

/-! ## C2-C5: multi-provider consolidation
(`TradingAnalyzer._combine_multi_provider_results`,
`_generate_consolidated_trading_decision`,
`_generate_local_consolidated_decision`, src/ai_analysis.py lines 1025-1504)

A provider's parsed result is an analysis text together with an optional
`change_analysis` dictionary; the dictionary's optional entries model Python
`dict.get` returning `None` for absent keys (an absent or empty dictionary is
modelled by `none`).  The list of `(provider name, result)` pairs is kept in
insertion order, which in `analyze_with_trend_alerts` is the order in which
the parallel futures complete. -/

/-- Entries of a provider's `change_analysis` dict that the consolidation
logic reads. -/
structure ChangeAnalysis where
  has_changes : Bool
  alert_level : Option String
  summary : Option String
  trend_change_probability : Option ℚ
  confidence_level : Option String
deriving DecidableEq

/-- A successful provider result as stored in `results` by
`analyze_with_trend_alerts` (lines 999-1004). -/
structure ProviderResult where
  analysis_text : String
  change_analysis : Option ChangeAnalysis
deriving DecidableEq

/-- An entry of `all_alerts` (lines 1072-1078). -/
structure AlertEntry where
  provider : String
  alert_level : String
  summary : String
  probability : ℚ
deriving DecidableEq

/-- Lines 1067-1071: probabilities are collected with
`change_analysis.get('trend_change_probability')`, keeping every value that
`is not None`; providers without a valid `change_analysis` dict are
skipped. -/
def collectProbabilities (results : List (String × ProviderResult)) : List ℚ :=
  results.filterMap (fun nr => nr.2.change_analysis.bind
    (fun ca => ca.trend_change_probability))

/-- The alert dict built at lines 1073-1078, with the `dict.get` defaults. -/
def mkAlertEntry (name : String) (ca : ChangeAnalysis) : AlertEntry :=
  ⟨name, ca.alert_level.getD "unknown", ca.summary.getD "",
    ca.trend_change_probability.getD 0⟩

/-- Lines 1072-1078: an alert is recorded for each provider whose
`change_analysis` has a truthy `has_changes`. -/
def collectAlerts (results : List (String × ProviderResult)) : List AlertEntry :=
  results.filterMap (fun nr => nr.2.change_analysis.bind
    (fun ca => if ca.has_changes then some (mkAlertEntry nr.1 ca) else none))

/-- Lines 1081-1088: the average probability, `0` when no probabilities were
collected. -/
def avgProbability (results : List (String × ProviderResult)) : ℚ :=
  let ps := collectProbabilities results
  if ps.isEmpty then 0 else ps.sum / (ps.length : ℚ)

/-- Python `max(all_probabilities)` (0 when the guard made the list empty,
matching lines 1085-1088). -/
def maxProbability (results : List (String × ProviderResult)) : ℚ :=
  match collectProbabilities results with
  | [] => 0
  | p :: rest => rest.foldl max p

/-- Python `min(all_probabilities)` (0 when empty). -/
def minProbability (results : List (String × ProviderResult)) : ℚ :=
  match collectProbabilities results with
  | [] => 0
  | p :: rest => rest.foldl min p

/-- The `alert_levels = {'low': 1, 'medium': 2, 'high': 3}` ranking with
default 0 (lines 1147-1148). -/
def alertRank (lvl : String) : Nat :=
  if strLower lvl = "low" then 1
  else if strLower lvl = "medium" then 2
  else if strLower lvl = "high" then 3
  else 0

/-- Python `max(all_alerts, key=...)`: iterates left to right and replaces the
current maximum only on a strictly greater key, so the first maximal element
wins. -/
def pyMaxAlert (a : AlertEntry) (rest : List AlertEntry) : AlertEntry :=
  rest.foldl (fun best x =>
    if alertRank best.alert_level < alertRank x.alert_level then x else best) a

/-- The `consensus_change_analysis` dict returned by
`_combine_multi_provider_results` (lines 1157-1197).  The
`google_ai_decision` key exists only in the first branch; its absence is
modelled by `false`. -/
structure ConsensusAnalysis where
  has_changes : Bool
  alert_level : String
  summary : String
  trend_change_probability : ℚ
  confidence_level : String
  provider_count : Nat
  provider_agreement : ℚ
  google_ai_decision : Bool
deriving DecidableEq

/-- Lines 1136-1197: consensus construction.  Google AI's email decision
overrides the provider consensus; otherwise provider alerts drive it; with
neither, a low-alert consensus is reported. -/
def combineConsensus (results : List (String × ProviderResult))
    (googleWantsEmail : Bool) : ConsensusAnalysis :=
  let alerts := collectAlerts results
  let avg := avgProbability results
  if googleWantsEmail then
    match alerts with
    | a :: rest =>
      let m := pyMaxAlert a rest
      ⟨true, m.alert_level, "Google AI Consensus: " ++ m.summary, avg, "high",
        results.length, ((a :: rest).length : ℚ) / (results.length : ℚ) * 100, true⟩
    | [] =>
      ⟨true, if 50 ≤ avg then "medium" else "low",
        "Google AI detected significant market conditions requiring attention",
        avg, "high", results.length, 0, true⟩
  else
    match alerts with
    | a :: rest =>
      let m := pyMaxAlert a rest
      ⟨true, m.alert_level,
        "Consensus from " ++ toString results.length ++ " providers: " ++ m.summary,
        avg, "high", results.length,
        ((a :: rest).length : ℚ) / (results.length : ℚ) * 100, false⟩
    | [] =>
      ⟨false, "low",
        "No significant changes detected by " ++ toString results.length ++
          " providers or Google AI",
        avg, "medium", results.length, 0, false⟩

/-- A trading recommendation vote (lines 1431-1451). -/
inductive Vote where
  | BUY
  | SELL
  | HOLD
deriving DecidableEq

/-- Rendering of a vote in the report text. -/
def Vote.str : Vote → String
  | .BUY => "BUY"
  | .SELL => "SELL"
  | .HOLD => "HOLD"

/-- Lines 1427-1436: the vote derived from one alert dict, with the
`dict.get` defaults `'medium'` and `50`, and the probability converted from a
percentage to a decimal. -/
def voteOfAlert (a : AlertEntry) : Vote :=
  let p := a.probability / 100
  if a.alert_level = "high" ∨ 7/10 < p then .BUY
  else if a.alert_level = "low" ∨ p < 3/10 then .SELL
  else .HOLD

/-- Lines 1439-1451: the fallback vote extracted from a provider's
`change_analysis` (used when `all_alerts` is empty); note the probability is
used as-is here, with default `0.5`. -/
def voteOfResult (r : String × String × Option ChangeAnalysis) : Vote :=
  match r.2.2 with
  | some ca =>
    if ca.has_changes then
      let lvl := ca.alert_level.getD "medium"
      let p := ca.trend_change_probability.getD (1/2)
      if lvl = "high" ∨ 7/10 < p then .BUY
      else if lvl = "low" ∨ p < 3/10 then .SELL
      else .HOLD
    else .HOLD
  | none => .HOLD

/-- Lines 1426-1455: one recommendation per alert when alerts exist, else one
per provider result, padded with `HOLD` up to the number of providers. -/
def localRecommendations (results : List (String × String × Option ChangeAnalysis))
    (alerts : List AlertEntry) : List Vote :=
  let base := if alerts.isEmpty then results.map voteOfResult else alerts.map voteOfAlert
  base ++ List.replicate (results.length - base.length) Vote.HOLD

/-- Lines 1458-1471: the consensus decision from the vote counts. -/
def localConsensusVote (recs : List Vote) : Vote :=
  let buyVotes := recs.count Vote.BUY
  let sellVotes := recs.count Vote.SELL
  let holdVotes := recs.count Vote.HOLD
  if sellVotes < buyVotes ∧ holdVotes < buyVotes then .BUY
  else if buyVotes < sellVotes ∧ holdVotes < sellVotes then .SELL
  else .HOLD

/-! ### Number and string formatting helpers for the report texts -/

/-- Nearest integer with ties to even, as used by Python `format`. -/
def roundHalfEven (q : ℚ) : ℤ :=
  let f := q.floor
  let r := q - (f : ℚ)
  if r < 1/2 then f
  else if 1/2 < r then f + 1
  else if f % 2 = 0 then f else f + 1

/-- Left-pad with zeroes to the given width. -/
def padZeros (w : Nat) (s : String) : String :=
  if s.length < w then String.mk (List.replicate (w - s.length) '0') ++ s else s

/-- Python `format(q, '.Nf')` on the rationals appearing in the reports. -/
def fmtFixed (digits : Nat) (q : ℚ) : String :=
  let n := roundHalfEven (q * (10 : ℚ) ^ digits)
  let sign := if n < 0 then "-" else ""
  let m := n.natAbs
  sign ++ toString (m / 10 ^ digits) ++ "." ++ padZeros digits (toString (m % 10 ^ digits))

/-- Smallest exponent `k` with `den ∣ 10^k`, when one exists — that is, when
a fraction over `den` has a terminating decimal expansion (the search bound
`den` is enough, since for `den = 2^a * 5^b` the answer `max a b` is below
`den`). -/
def decExp (den : Nat) : Option Nat :=
  (List.range (den + 1)).find? (fun k => 10 ^ k % den == 0)

/-- Python `str()` of a probability value: integral values print without a
decimal point; values with a terminating decimal expansion (every value
parsed from a decimal literal) print as that decimal with trailing zeroes
trimmed; any other rational keeps the canonical rendering as a stand-in for
the float `repr`. -/
def probStr (q : ℚ) : String :=
  if q.den = 1 then toString q.num
  else
    match decExp q.den with
    | some k =>
      let n := q.num.natAbs * 10 ^ k / q.den
      let sign := if q.num < 0 then "-" else ""
      let fpStr := padZeros k (toString (n % 10 ^ k))
      let fpTrim : String := ⟨(fpStr.data.reverse.dropWhile (fun c => c == '0')).reverse⟩
      sign ++ toString (n / 10 ^ k) ++ "." ++ (if fpTrim = "" then "0" else fpTrim)
    | none => toString q

/-- Python whitespace test (`str.strip` / `\s`). -/
def isPySpaceChar (c : Char) : Bool :=
  c == ' ' || c == '\t' || c == '\n' || c == '\r' || c == '\x0b' || c == '\x0c'

/-- Python `str.strip()`. -/
def pyStrip (s : String) : String :=
  ⟨((s.data.dropWhile isPySpaceChar).reverse.dropWhile isPySpaceChar).reverse⟩

/-- Python `str.title()` (ASCII): a letter is upper-cased when the previous
character is not a letter, lower-cased otherwise. -/
def pyTitle (s : String) : String :=
  ⟨(s.data.foldl (fun (acc : List Char × Bool) c =>
      if c.isAlpha then
        ((if acc.2 then c.toLower else c.toUpper) :: acc.1, true)
      else (c :: acc.1, false))
    ([], false)).1.reverse⟩

/-- The `'='*50` separator of the local decision report. -/
def sep50 : String := ⟨List.replicate 50 '='⟩

/-- The `'='*60` separator of the combined text report. -/
def sep60 : String := ⟨List.replicate 60 '='⟩

/-- The per-provider confidence shown in the provider breakdown
(lines 1491-1500). -/
def confidenceOf (alerts : List AlertEntry) (avgProb : ℚ) (i : Nat)
    (r : String × String × Option ChangeAnalysis) : ℚ :=
  if ¬alerts.isEmpty ∧ i < alerts.length then
    (alerts.getD i ⟨"", "", "", 0⟩).probability / 100
  else
    match r.2.2 with
    | some ca => ca.trend_change_probability.getD avgProb
    | none => avgProb

/-- Everything after the leading newline of the
`_generate_local_consolidated_decision` report text (lines 1473-1503). -/
def generateLocalDecisionBody
    (results : List (String × String × Option ChangeAnalysis))
    (avgProb : ℚ) (alerts : List AlertEntry) (symbol : String) : String :=
  let recs := localRecommendations results alerts
  let consensus := localConsensusVote recs
  let buyVotes := recs.count Vote.BUY
  let sellVotes := recs.count Vote.SELL
  let holdVotes := recs.count Vote.HOLD
  let strength :=
    if sellVotes < buyVotes ∧ holdVotes < buyVotes then
      toString buyVotes ++ "/" ++ toString results.length
    else if buyVotes < sellVotes ∧ holdVotes < sellVotes then
      toString sellVotes ++ "/" ++ toString results.length
    else toString holdVotes ++ "/" ++ toString results.length
  let trendLine :=
    if 6/10 < avgProb then
      "High probability (" ++ fmtFixed 1 (avgProb * 100) ++
        "%) of significant trend change\n"
    else if 4/10 < avgProb then
      "Moderate probability (" ++ fmtFixed 1 (avgProb * 100) ++ "%) of trend change\n"
    else "Low probability (" ++ fmtFixed 1 (avgProb * 100) ++ "%) of trend change\n"
  let breakdown := String.join (results.enum.map (fun ir =>
    if ir.1 < recs.length then
      "- " ++ ir.2.1 ++ ": " ++ (recs.getD ir.1 Vote.HOLD).str ++ " (confidence: " ++
        fmtFixed 2 (confidenceOf alerts avgProb ir.1 ir.2) ++ ")\n"
    else ""))
  sep50 ++ "\n" ++ "LOCAL CONSOLIDATED TRADING DECISION FOR " ++ symbol ++
    "\n" ++ sep50 ++ "\n\n" ++
  "TRADING DECISION: " ++ consensus.str ++ "\n" ++
  "Provider Consensus: " ++ strength ++ " providers agree\n" ++
  "Average Confidence: " ++ fmtFixed 2 avgProb ++ "\n\n" ++
  "TREND CHANGE EVALUATION:\n" ++ trendLine ++
  "\nProvider Breakdown:\n" ++ breakdown ++ "\n" ++ sep50 ++ "\n"

/-- `TradingAnalyzer._generate_local_consolidated_decision`
(lines 1419-1504): the report text, starting with a newline
(`f"\n{'='*50}\n"`). -/
def generateLocalConsolidatedDecision
    (results : List (String × String × Option ChangeAnalysis))
    (avgProb : ℚ) (alerts : List AlertEntry) (symbol : String) : String :=
  "\n" ++ generateLocalDecisionBody results avgProb alerts symbol

/-- The fixed text returned when no provider analyses are available
(line 1387). -/
def noProviderDecision : String :=
  "\n=== CONSOLIDATED TRADING DECISION ===\nNo provider analyses available.\n"

/-- `TradingAnalyzer._generate_consolidated_trading_decision`
(lines 1384-1417).  The Google AI call (including analyzer construction) is
an oracle returning either the consolidated text or an exception; a missing,
empty or placeholder `GOOGLE_AI_API_KEY` falls back to the local decision, as
does every exception. -/
def generateConsolidatedTradingDecision
    (results : List (String × String × Option ChangeAnalysis))
    (avgProb : ℚ) (alerts : List AlertEntry) (symbol : String)
    (googleApiKey : Option String) (googleCall : Except String String) : String :=
  if results.isEmpty then noProviderDecision
  else
    let keyConfigured :=
      match googleApiKey with
      | none => false
      | some k => !(k == "" || k == "YOUR_GOOGLE_AI_API_KEY_HERE")
    if keyConfigured then
      match googleCall with
      | .ok text => "\n" ++ text ++ "\n"
      | .error _ => generateLocalConsolidatedDecision results avgProb alerts symbol
    else generateLocalConsolidatedDecision results avgProb alerts symbol

/-- The fixed section order `['claude', 'perplexity', 'google']`
(lines 1259-1264). -/
def providerOrder : List String := ["claude", "perplexity", "google"]

/-- The `section_titles` dict of the text report (lines 1260-1264). -/
def orderedSectionTitle : String → String
  | "claude" => "CLAUDE ANALYSIS"
  | "perplexity" => "PERPLEXITY ANALYSIS"
  | "google" => "GOOGLE AI ANALYSIS"
  | s => strUpper s ++ " ANALYSIS"

/-- The lines of the combined text report (`text_analysis`,
lines 1248-1298): the Google AI decision section, the fixed-order provider
sections, the remaining providers in `results` insertion order, and the
consensus summary. -/
def textLines (tradingDecision : Option String)
    (results : List (String × ProviderResult)) : List String :=
  let probs := collectProbabilities results
  let alerts := collectAlerts results
  let avg := avgProbability results
  (match tradingDecision with
   | some td =>
     if td = "" then []
     else ["GOOGLE AI CONSOLIDATED TRADING DECISION", sep60, pyStrip td, ""]
   | none => []) ++
  List.flatten (providerOrder.map (fun p =>
    match results.lookup p with
    | some r => [orderedSectionTitle p, sep60, pyStrip r.analysis_text, ""]
    | none => [])) ++
  List.flatten ((results.filter (fun nr => ¬ providerOrder.contains nr.1)).map (fun nr =>
    [strUpper nr.1 ++ " ANALYSIS", sep60, pyStrip nr.2.analysis_text, ""])) ++
  ["MULTI-PROVIDER CONSENSUS SUMMARY", sep60] ++
  (if probs.isEmpty then []
   else
    ["Average Trend Change Probability: " ++ fmtFixed 1 avg ++ "%",
     "Probability Range: " ++ fmtFixed 1 (minProbability results) ++ "% - " ++
       fmtFixed 1 (maxProbability results) ++ "%",
     "Providers Used: " ++ toString results.length, ""]) ++
  (if alerts.isEmpty then []
   else
    ("Alerts from " ++ toString alerts.length ++ " provider(s):") ::
      (alerts.map (fun a => "  - " ++ pyTitle a.provider ++ ": " ++
        strUpper a.alert_level ++ " (" ++ probStr a.probability ++ "%) - " ++
        a.summary)) ++ [""])

/-- The combined text report and the consensus returned by
`_combine_multi_provider_results` (and hence by
`analyze_with_trend_alerts`), with `results` in future-completion order.
When Google AI consolidation is enabled the decision text is generated first
and its email verdict parsed (lines 1090-1100). -/
def combineMulti (googleConsolidationEnabled : Bool) (googleApiKey : Option String)
    (googleCall : Except String String) (results : List (String × ProviderResult))
    (symbol : String) : String × ConsensusAnalysis :=
  let alerts := collectAlerts results
  let avg := avgProbability results
  let td : Option String :=
    if googleConsolidationEnabled then
      some (generateConsolidatedTradingDecision
        (results.map (fun nr => (nr.1, nr.2.analysis_text, nr.2.change_analysis)))
        avg alerts symbol googleApiKey googleCall)
    else none
  let gw := if googleConsolidationEnabled then parse_google_ai_email_decision td else false
  (String.intercalate "\n" (textLines td results), combineConsensus results gw)

/-- Spec-side definition of the arithmetic mean of a list of rationals (the
mean of the empty list is 0, via division by zero). -/
def arithMean (l : List ℚ) : ℚ := l.sum / (l.length : ℚ)

/-- A change analysis with no probability and no changes, for the C5
counterexample. -/
def changeAnalysisCE : ChangeAnalysis :=
  { has_changes := false, alert_level := none, summary := none,
    trend_change_probability := none, confidence_level := none }

/-- Two providers outside the fixed section order, completion order
grok-then-openai. -/
def resultsCE1 : List (String × ProviderResult) :=
  [("grok", ⟨"Grok chart reading", some changeAnalysisCE⟩),
   ("openai", ⟨"OpenAI chart reading", some changeAnalysisCE⟩)]

/-- The same two provider results, completion order openai-then-grok. -/
def resultsCE2 : List (String × ProviderResult) :=
  [("openai", ⟨"OpenAI chart reading", some changeAnalysisCE⟩),
   ("grok", ⟨"Grok chart reading", some changeAnalysisCE⟩)]

/-- A change analysis carrying a probability, for witnesses. -/
def changeAnalysisW : ChangeAnalysis :=
  { has_changes := true, alert_level := some "high", summary := some "Breakout",
    trend_change_probability := some 80, confidence_level := some "high" }

/-- Concrete provider results for the C2 witness. -/
def resultsW : List (String × ProviderResult) :=
  [("claude", ⟨"Claude analysis text", some changeAnalysisW⟩),
   ("perplexity", ⟨"Perplexity analysis text",
     some { has_changes := false, alert_level := none, summary := none,
            trend_change_probability := some 40, confidence_level := none }⟩)]

/-- Concrete `(name, text, change_analysis)` triples for the C3/C4
witnesses. -/
def localResultsW : List (String × String × Option ChangeAnalysis) :=
  [("claude", "Claude analysis text", some changeAnalysisW)]

/-- Concrete alert list for the C3/C4 witnesses. -/
def alertsW : List AlertEntry := [⟨"claude", "high", "Breakout", 80⟩]

/-! ## C7: report files
(`PerplexityAnalyzer.save_combined_analysis_report`,
src/trading_analysis.py lines 260-317, and the HTML report write of
`_combine_multi_provider_results`, src/ai_analysis.py lines 1201-1215,
with the constants of src/utils.py lines 12-14)

A file write is modelled by the path, the open mode, and the written content.
`os.path` operations on the host file system (`exists`, `dirname`,
`basename`) are oracles; `os.path.join` is modelled with a fixed separator.
The wall clock (`datetime.now().strftime(...)`) is the `now` parameter. -/

/-- One `open(path, mode)` + `write(content)` event. -/
structure FileWrite where
  path : String
  mode : String
  content : String

/-- `COMBINED_ANALYSIS_FILENAME` of src/utils.py (equal to the literal
`report_filename` of `save_combined_analysis_report`). -/
def COMBINED_ANALYSIS_FILENAME : String := "combined_analysis_latest.txt"

/-- `MULTI_PROVIDER_HTML_FILENAME` of src/utils.py. -/
def MULTI_PROVIDER_HTML_FILENAME : String := "multi_provider_analysis.html"

/-- Model of `os.path.join` with a fixed separator. -/
def joinPath (a b : String) : String := a ++ "/" ++ b

/-- Lines 263-270: the output directory defaults to the directory of the
first existing screenshot path, then to `"screenshots"`. -/
def reportOutputDir (screenshotData : List (String × Option String))
    (outputDir : Option String) (existsF : String → Bool)
    (dirnameF : String → String) : String :=
  match outputDir with
  | some d => d
  | none =>
    match (screenshotData.filterMap (fun kv =>
        match kv.2 with
        | some p => if p ≠ "" ∧ existsF p = true then some p else none
        | none => none)).head? with
    | some p => dirnameF p
    | none => "screenshots"

/-- The `'-'*30` separator of the combined report. -/
def dash30 : String := ⟨List.replicate 30 '-'⟩

/-- The `'='*40` separator of the combined report. -/
def sep40 : String := ⟨List.replicate 40 '='⟩

/-- The report body written at lines 277-309 of src/trading_analysis.py. -/
def combinedReportContent (screenshotData : List (String × Option String))
    (analysis : String) (changeAnalysis : Option ChangeAnalysis) (now : String)
    (basenameF : String → String) : String :=
  let shot_count := (screenshotData.filter (fun kv => kv.2.getD "" ≠ "")).length
  let sourceLines := String.join (screenshotData.map (fun kv =>
    match kv.2 with
    | some p =>
      if p = "" then ""
      else "- " ++ pyTitle (kv.1.replace "_" " ") ++ ": " ++ basenameF p ++ "\n"
    | none => ""))
  let changeSection :=
    match changeAnalysis with
    | some ca =>
      "\nTrend Change Analysis:\n" ++ dash30 ++ "\n" ++
      "[DATA] Trend Change Probability: " ++
        probStr (ca.trend_change_probability.getD 0) ++ "%\n" ++
      "[>>] Confidence Level: " ++ strUpper (ca.confidence_level.getD "unknown") ++
        "\n" ++
      "[ALERT] Status: " ++ (if ca.has_changes then "ALERT" else "NO ALERT") ++
        " (" ++ strUpper (ca.alert_level.getD "info") ++ ")\n" ++
      (match ca.summary with
       | some sm => "[SUMMARY] " ++ sm ++ "\n"
       | none => "") ++ "\n"
    | none => ""
  "Combined Screenshot Analysis Report\n" ++ sep60 ++ "\n" ++
  "Analysis Date: " ++ now ++ "\n" ++
  "Screenshots Analyzed: " ++ toString shot_count ++ "\n\n" ++
  "Screenshot Sources:\n" ++ dash30 ++ "\n" ++ sourceLines ++
  changeSection ++
  "Combined Analysis Results:\n" ++ sep40 ++ "\n" ++ analysis ++ "\n\n"

/-- `PerplexityAnalyzer.save_combined_analysis_report`: the single file write
it performs (lines 272-309). -/
def save_combined_analysis_report (screenshotData : List (String × Option String))
    (analysis : String) (outputDir : Option String)
    (changeAnalysis : Option ChangeAnalysis) (now : String)
    (existsF : String → Bool) (dirnameF basenameF : String → String) : FileWrite :=
  ⟨joinPath (reportOutputDir screenshotData outputDir existsF dirnameF)
      COMBINED_ANALYSIS_FILENAME,
    "w",
    combinedReportContent screenshotData analysis changeAnalysis now basenameF⟩

/-- The HTML report write of `_combine_multi_provider_results`
(src/ai_analysis.py lines 1207-1213): the path is
`Paths.SCREENSHOTS_DIR/symbol/MULTI_PROVIDER_HTML_FILENAME` and the mode
`'w'`; the joined HTML (which embeds the generation time) is the content. -/
def multiProviderReportWrite (screenshotsDir symbol : String)
    (html : String) : FileWrite :=
  ⟨joinPath (joinPath screenshotsDir symbol) MULTI_PROVIDER_HTML_FILENAME, "w", html⟩

/-! ## C10: `encode_image_to_base64` (src/utils.py lines 24-66)

The file system is an oracle giving existence and the byte content of a path
(bytes as naturals below 256).  `base64.b64encode` is the standard base64
alphabet with `=` padding. -/

/-- The standard base64 alphabet. -/
def base64Table : List Char :=
  "ABCDEFGHIJKLMNOPQRSTUVWXYZabcdefghijklmnopqrstuvwxyz0123456789+/".data

/-- The base64 digit for a 6-bit value. -/
def b64Char (n : Nat) : Char := base64Table.getD n 'A'

/-- The 6-bit value of a base64 digit. -/
def b64Index (c : Char) : Option Nat :=
  (List.range 64).find? (fun i => b64Char i == c)

/-- `base64.b64encode`: three bytes become four digits; a final group of two
or one byte is zero-padded and marked with `=` padding characters. -/
def b64EncodeChunks : List Nat → List Char
  | b1 :: b2 :: b3 :: rest =>
    let x := b1 * 65536 + b2 * 256 + b3
    b64Char (x / 262144) :: b64Char (x / 4096 % 64) :: b64Char (x / 64 % 64) ::
      b64Char (x % 64) :: b64EncodeChunks rest
  | [b1, b2] =>
    let x := b1 * 1024 + b2 * 4
    [b64Char (x / 4096), b64Char (x / 64 % 64), b64Char (x % 64), '=']
  | [b1] =>
    let x := b1 * 16
    [b64Char (x / 64), b64Char (x % 64), '=', '=']
  | [] => []

/-- `base64.b64decode` on well-formed input: the inverse of
`b64EncodeChunks`, rejecting malformed strings with `none`. -/
def b64DecodeAux : List Char → Option (List Nat)
  | [] => some []
  | c1 :: c2 :: c3 :: c4 :: rest =>
    match b64Index c1, b64Index c2 with
    | some a, some b =>
      if c3 = '=' then
        if c4 = '=' ∧ rest = [] then
          if (a * 64 + b) % 16 = 0 then some [(a * 64 + b) / 16] else none
        else none
      else
        match b64Index c3 with
        | some c =>
          if c4 = '=' then
            if rest = [] then
              let x := (a * 64 + b) * 64 + c
              if x % 4 = 0 then some [x / 1024, x / 4 % 256] else none
            else none
          else
            match b64Index c4, b64DecodeAux rest with
            | some d, some tail =>
              let x := ((a * 64 + b) * 64 + c) * 64 + d
              some (x / 65536 :: x / 256 % 256 :: x % 256 :: tail)
            | _, _ => none
        | none => none
    | _, _ => none
  | _ => none

/-- The file system as seen by `encode_image_to_base64`. -/
structure FileSystem where
  fileExists : String → Bool
  content : String → List Nat

/-- Index of the last occurrence of `c` in `cs` (Python `str.rfind`,
`none` for `-1`). -/
def rfindIdx (cs : List Char) (c : Char) : Option Nat :=
  ((cs.enum.filter (fun p => p.2 == c)).map (fun p => p.1)).getLast?

/-- Python `os.path.splitext(p)[1]` (ntpath): the extension starts at the
last dot, provided that dot lies after the last path separator (`\` or `/`)
and at least one non-dot character of the base name precedes it. -/
def pySplitextExt (p : String) : String :=
  let cs := p.data
  let sepIdx : Int :=
    max (match rfindIdx cs '/' with | some n => (n : Int) | none => -1)
        (match rfindIdx cs '\\' with | some n => (n : Int) | none => -1)
  match rfindIdx cs '.' with
  | none => ""
  | some d =>
    if sepIdx < (d : Int) ∧
        (List.range d).any (fun j =>
          decide (sepIdx < (j : Int)) && !(cs.getD j '.' == '.')) = true then
      ⟨cs.drop d⟩
    else ""

/-- Lines 46-56: the MIME type chosen from the lower-cased extension,
defaulting to `image/png`. -/
def mimeForExt (ext : String) : String :=
  if ext = ".png" then "image/png"
  else if ext = ".jpg" ∨ ext = ".jpeg" then "image/jpeg"
  else if ext = ".gif" then "image/gif"
  else if ext = ".webp" then "image/webp"
  else "image/png"

/-- `encode_image_to_base64` of src/utils.py: raises `FileNotFoundError` when
the path does not exist, otherwise returns the
`data:<mime>;base64,<payload>` URI of the file's bytes. -/
def encode_image_to_base64 (fs : FileSystem) (path : String) :
    Except String String :=
  if fs.fileExists path then
    .ok ("data:" ++ mimeForExt (strLower (pySplitextExt path)) ++ ";base64," ++
      String.mk (b64EncodeChunks (fs.content path)))
  else .error ("Image file not found: " ++ path)

/-- A concrete file system for the C10 witness: one PNG file of four bytes. -/
def fsW : FileSystem :=
  ⟨fun p => p == "chart.png", fun p => if p == "chart.png" then [137, 80, 78, 71] else []⟩

/-! ## C9: `sanitize_for_logging` (src/utils.py lines 69-98)

The default sensitive patterns are applied in order with
`re.sub(pattern, '[REDACTED]', text, flags=re.IGNORECASE)`.  Each pattern is
implemented by a matcher `List Char → Option Nat` returning the length of
the (greedy, leftmost) match starting at the head of the given suffix, and
`re.sub` by a scan that replaces each non-overlapping leftmost match with
`[REDACTED]`.  The three API-key patterns share the shape
"case-insensitive literal, then one or more characters of a class", for
which greedy matching with no backtracking is exact; the password/api-key
patterns are deterministic as well because their optional quote can never
steal a character that the following mandatory piece accepts. -/

/-- Case-insensitive character comparison (`re.IGNORECASE`, ASCII). -/
def charIEq (a b : Char) : Bool := a.toLower == b.toLower

/-- Does `lit` match the head of `s` case-insensitively? -/
def litHeadMatch : List Char → List Char → Bool
  | [], _ => true
  | _ :: _, [] => false
  | a :: l, b :: s2 => charIEq a b && litHeadMatch l s2

/-- A pattern of the shape `literal` followed by `class+`. -/
structure KeyPat where
  lit : List Char
  cls : Char → Bool

/-- Leftmost-greedy match of a `KeyPat` at the head of `s`: the literal
case-insensitively, then a maximal non-empty run of class characters. -/
def tryKey (K : KeyPat) (s : List Char) : Option Nat :=
  if litHeadMatch K.lit s then
    let m := ((s.drop K.lit.length).takeWhile K.cls).length
    if m = 0 then none else some (K.lit.length + m)
  else none

/-- `[a-zA-Z0-9]` (ASCII). -/
def isAsciiAlphanum (c : Char) : Bool := c.isAlpha || c.isDigit

/-- `pplx-[a-zA-Z0-9]+` (Perplexity API key). -/
def pplxPat : KeyPat := ⟨("pplx-").data, isAsciiAlphanum⟩

/-- `sk-ant-[a-zA-Z0-9\-]+` (Anthropic API key). -/
def skAntPat : KeyPat := ⟨("sk-ant-").data, fun c => isAsciiAlphanum c || c == '-'⟩

/-- `AIza[a-zA-Z0-9\-_]+` (Google API key). -/
def aizaPat : KeyPat :=
  ⟨("AIza").data, fun c => isAsciiAlphanum c || c == '-' || c == '_'⟩

/-- The replacement text `'[REDACTED]'`. -/
def redactedChars : List Char := ("[REDACTED]").data

/-- `re.sub(pattern, '[REDACTED]', s)`: scan left to right; at each position
replace the leftmost match and continue after it, otherwise keep the
character.  (Every matcher used here returns a positive length; `max n 1`
only serves termination.) -/
def subRedact (try2 : List Char → Option Nat) : List Char → List Char
  | [] => []
  | c :: rest =>
    match try2 (c :: rest) with
    | some n => redactedChars ++ subRedact try2 ((c :: rest).drop (max n 1))
    | none => c :: subRedact try2 rest
termination_by s => s.length
decreasing_by
  · simp only [List.length_drop, List.length_cons]
    omega
  · simp

/-- `["']`. -/
def isQuoteChar (c : Char) : Bool := c == '"' || c == (Char.ofNat 39)

/-- `[^"'\s]`. -/
def isValueChar (c : Char) : Bool := !(isQuoteChar c) && !(isPySpaceChar c)

/-- Match `["']?`: consumed length and remaining suffix. -/
def optQuote : List Char → Nat × List Char
  | [] => (0, [])
  | c :: rest => if isQuoteChar c then (1, rest) else (0, c :: rest)

/-- Match `\s*` greedily: consumed length and remaining suffix. -/
def takeSpaces (s : List Char) : Nat × List Char :=
  let w := (s.takeWhile isPySpaceChar).length
  (w, s.drop w)

/-- Match `["']?\s*[:=]\s*["']?[^"'\s]+` at the head of `s` (the common
suffix of the password and api-key patterns). -/
def trySuffixAssign (s : List Char) : Option Nat :=
  let q1 := optQuote s
  let w1 := takeSpaces q1.2
  match w1.2 with
  | c :: s3 =>
    if c == ':' || c == '=' then
      let w2 := takeSpaces s3
      let q2 := optQuote w2.2
      let m := (q2.2.takeWhile isValueChar).length
      if m = 0 then none else some (q1.1 + w1.1 + 1 + w2.1 + q2.1 + m)
    else none
  | [] => none

/-- `password["']?\s*[:=]\s*["']?[^"'\s]+` (case-insensitive). -/
def tryPassword (s : List Char) : Option Nat :=
  if litHeadMatch ("password").data s then
    (trySuffixAssign (s.drop 8)).map (fun n => 8 + n)
  else none

/-- `api[_-]?key["']?\s*[:=]\s*["']?[^"'\s]+` (case-insensitive). -/
def tryApiKey (s : List Char) : Option Nat :=
  if litHeadMatch ("api").data s then
    let s1 := s.drop 3
    match s1 with
    | c :: rest =>
      if (c == '_' || c == '-') && litHeadMatch ("key").data rest then
        (trySuffixAssign (rest.drop 3)).map (fun n => 7 + n)
      else if litHeadMatch ("key").data s1 then
        (trySuffixAssign (s1.drop 3)).map (fun n => 6 + n)
      else none
    | [] => none
  else none

/-- `sanitize_for_logging` of src/utils.py with the default patterns: empty
(or `None`) input is returned unchanged, otherwise the five substitutions
are applied in order. -/
def sanitize_for_logging (text : String) : String :=
  if text = "" then text
  else
    ⟨subRedact tryApiKey (subRedact tryPassword (subRedact (tryKey aizaPat)
      (subRedact (tryKey skAntPat) (subRedact (tryKey pplxPat) text.data))))⟩

/-- A `KeyPat` match at the head of `s`: the literal matches
case-insensitively and at least one class character follows. -/
def keyMatches (K : KeyPat) (s : List Char) : Prop :=
  litHeadMatch K.lit s = true ∧
  ∃ c rest, s.drop K.lit.length = c :: rest ∧ K.cls c = true

/-- No `KeyPat` match starts anywhere in `s` (that is, `s` contains no
substring matching the pattern). -/
def keyClean (K : KeyPat) (s : List Char) : Prop :=
  ∀ i, tryKey K (s.drop i) = none

/-- First case-insensitive mismatch between `lit` and a prefix of `l` occurs
within `l`. -/
def hasMismatch : List Char → List Char → Bool
  | [], _ => false
  | _ :: _, [] => false
  | a :: l, b :: s2 => !(charIEq a b) || hasMismatch l s2

/-! # Theorems -/

/-! ## C1 -/

/-- Invariant of the `_call_with_backoff` loop: starting at attempt
`attempt ≤ maxAttempts` with the correct remaining fuel, the trace makes
between 1 and `fuel` calls, every call but the last raises, the returned value
is the value of the last call, the sleeps are exactly the backoff delays
of the retryable failed attempts before the last call, and — the
continuation property — if the loop stopped before the final allowed
attempt, the last call returned a response rather than raising: the loop
never gives up early on an error, retryable or not. -/
theorem callBackoffAux_spec (oracle : Nat → CallResult) (jitter : Nat → ℚ)
    (maxAttempts : Nat) (baseDelay : ℚ) :
    ∀ fuel attempt, 1 ≤ attempt → attempt ≤ maxAttempts →
      attempt + fuel = maxAttempts + 1 →
      1 ≤ (callBackoffAux oracle jitter maxAttempts baseDelay attempt fuel).calls ∧
      (callBackoffAux oracle jitter maxAttempts baseDelay attempt fuel).calls ≤ fuel ∧
      (∀ k ∈ List.range' attempt
          ((callBackoffAux oracle jitter maxAttempts baseDelay attempt fuel).calls - 1),
        (oracle k).isErr = true) ∧
      (callBackoffAux oracle jitter maxAttempts baseDelay attempt fuel).result =
        (oracle (attempt + (callBackoffAux oracle jitter maxAttempts baseDelay attempt fuel).calls - 1)).value ∧
      (callBackoffAux oracle jitter maxAttempts baseDelay attempt fuel).sleeps =
        ((List.range' attempt
            ((callBackoffAux oracle jitter maxAttempts baseDelay attempt fuel).calls - 1)).filter
          (fun k => (oracle k).retryable)).map
            (fun k => baseDelay * 2 ^ (k - 1) + jitter k) ∧
      (attempt + (callBackoffAux oracle jitter maxAttempts baseDelay attempt fuel).calls - 1 <
          maxAttempts →
        (oracle (attempt + (callBackoffAux oracle jitter maxAttempts baseDelay attempt fuel).calls - 1)).isErr =
          false) := by
  intro fuel
  induction fuel with
  | zero => intro attempt h1 h2 h3; omega
  | succ n ih =>
    intro attempt h1 h2 h3
    rcases hor : oracle attempt with t | msg
    · refine ⟨?_, ?_, ?_, ?_, ?_, ?_⟩ <;>
        simp [callBackoffAux, hor, CallResult.value, CallResult.isErr]
    · by_cases hretry : isRetryableError msg = true ∧ attempt < maxAttempts
      · have hrec := ih (attempt + 1) (by omega) (by omega) (by omega)
        set rest := callBackoffAux oracle jitter maxAttempts baseDelay (attempt + 1) n with hrest
        obtain ⟨hc1, hc2, herr, hres, hsl, hcont⟩ := hrec
        have hstep : callBackoffAux oracle jitter maxAttempts baseDelay attempt (n + 1) =
            ⟨rest.result, rest.calls + 1,
              (baseDelay * 2 ^ (attempt - 1) + jitter attempt) :: rest.sleeps⟩ := by
          simp [callBackoffAux, hor, hretry]
        rw [hstep]
        dsimp only
        have hrange : List.range' attempt (rest.calls + 1 - 1) =
            attempt :: List.range' (attempt + 1) (rest.calls - 1) := by
          have h4 : rest.calls + 1 - 1 = (rest.calls - 1) + 1 := by omega
          rw [h4, List.range'_succ]
        refine ⟨by omega, by omega, ?_, ?_, ?_, ?_⟩
        · intro k hk
          rw [hrange] at hk
          rcases List.mem_cons.mp hk with hk | hk
          · subst hk; simp [hor, CallResult.isErr]
          · exact herr k hk
        · have h4 : attempt + (rest.calls + 1) - 1 = attempt + 1 + rest.calls - 1 := by omega
          rw [h4, hres]
        · rw [hrange]
          have hretry' : (oracle attempt).retryable = true := by
            simp [hor, CallResult.retryable, hretry.1]
          simp only [List.filter_cons, hretry', if_pos, List.map_cons]
          simp [hsl]
        · have h4 : attempt + (rest.calls + 1) - 1 = attempt + 1 + rest.calls - 1 := by omega
          rw [h4]
          exact hcont
      · by_cases hlast : attempt = maxAttempts
        · have hstep : callBackoffAux oracle jitter maxAttempts baseDelay attempt (n + 1) =
              ⟨none, 1, []⟩ := by
            simp only [callBackoffAux, hor]
            rw [if_neg hretry, if_pos hlast]
          rw [hstep]
          dsimp only
          refine ⟨le_refl 1, by omega, ?_, ?_, ?_, ?_⟩
          · intro k hk; simp at hk
          · simp [hor, CallResult.value]
          · simp
          · intro hlt
            exact absurd hlt (by omega)
        · have hrec := ih (attempt + 1) (by omega) (by omega) (by omega)
          set rest := callBackoffAux oracle jitter maxAttempts baseDelay (attempt + 1) n with hrest
          obtain ⟨hc1, hc2, herr, hres, hsl, hcont⟩ := hrec
          have hstep : callBackoffAux oracle jitter maxAttempts baseDelay attempt (n + 1) =
              ⟨rest.result, rest.calls + 1, rest.sleeps⟩ := by
            simp [callBackoffAux, hor, hretry, hlast]
          rw [hstep]
          dsimp only
          have hrange : List.range' attempt (rest.calls + 1 - 1) =
              attempt :: List.range' (attempt + 1) (rest.calls - 1) := by
            have h4 : rest.calls + 1 - 1 = (rest.calls - 1) + 1 := by omega
            rw [h4, List.range'_succ]
          refine ⟨by omega, by omega, ?_, ?_, ?_, ?_⟩
          · intro k hk
            rw [hrange] at hk
            rcases List.mem_cons.mp hk with hk | hk
            · subst hk; simp [hor, CallResult.isErr]
            · exact herr k hk
          · have h4 : attempt + (rest.calls + 1) - 1 = attempt + 1 + rest.calls - 1 := by omega
            rw [h4, hres]
          · rw [hrange]
            have hretry' : (oracle attempt).retryable = false := by
              simp only [hor, CallResult.retryable]
              cases hr : isRetryableError msg
              · rfl
              · exact absurd ⟨hr, by omega⟩ hretry
            simp only [List.filter_cons, hretry']
            simp [hsl]
          · have h4 : attempt + (rest.calls + 1) - 1 = attempt + 1 + rest.calls - 1 := by omega
            rw [h4]
            exact hcont

/-- C1 (amended): for every oracle and jitter sequence,
`_call_with_backoff` makes between 1 and `max_attempts` calls to the model;
every call except the last one raised an exception; the returned value is the
extracted text of the last call (`None` when the last call raised, in
particular when the final attempt fails); and the function sleeps exactly
once, for `base_delay * 2**(k-1) + jitter_k` seconds, after each failed
attempt `k` before the last call whose error message contains a rate-limit
keyword — after a non-retryable failure before the last attempt it proceeds
to the next attempt without sleeping, rather than giving up: the final
conjunct forces continuation, since whenever fewer than `max_attempts` calls
were made the last call returned a response (did not raise). -/
theorem call_with_backoff_spec (oracle : Nat → CallResult) (jitter : Nat → ℚ)
    (maxAttempts : Nat) (baseDelay : ℚ) (h : 1 ≤ maxAttempts) :
    1 ≤ (call_with_backoff oracle jitter maxAttempts baseDelay).calls ∧
    (call_with_backoff oracle jitter maxAttempts baseDelay).calls ≤ maxAttempts ∧
    (∀ k ∈ List.range' 1 ((call_with_backoff oracle jitter maxAttempts baseDelay).calls - 1),
      (oracle k).isErr = true) ∧
    (call_with_backoff oracle jitter maxAttempts baseDelay).result =
      (oracle (call_with_backoff oracle jitter maxAttempts baseDelay).calls).value ∧
    (call_with_backoff oracle jitter maxAttempts baseDelay).sleeps =
      ((List.range' 1 ((call_with_backoff oracle jitter maxAttempts baseDelay).calls - 1)).filter
        (fun k => (oracle k).retryable)).map
          (fun k => baseDelay * 2 ^ (k - 1) + jitter k) ∧
    ((call_with_backoff oracle jitter maxAttempts baseDelay).calls < maxAttempts →
      (oracle (call_with_backoff oracle jitter maxAttempts baseDelay).calls).isErr = false) := by
  have hmain := callBackoffAux_spec oracle jitter maxAttempts baseDelay maxAttempts 1
    (le_refl 1) h (by omega)
  obtain ⟨h1, h2, h3, h4, h5, h6⟩ := hmain
  have hc : 1 + (callBackoffAux oracle jitter maxAttempts baseDelay 1 maxAttempts).calls - 1 =
      (callBackoffAux oracle jitter maxAttempts baseDelay 1 maxAttempts).calls := by omega
  rw [hc] at h4 h6
  exact ⟨h1, h2, h3, h4, h5, h6⟩

/-- Witness for `call_with_backoff_spec` at a concrete input: with a
rate-limit failure on attempt 1 and success on attempt 2, the hypothesis
`1 ≤ 5` holds and the theorem applies. -/
theorem call_with_backoff_spec_witness :
    1 ≤ 5 ∧
    (1 ≤ (call_with_backoff backoffOracleW backoffJitterCE 5 1).calls ∧
    (call_with_backoff backoffOracleW backoffJitterCE 5 1).calls ≤ 5 ∧
    (∀ k ∈ List.range' 1 ((call_with_backoff backoffOracleW backoffJitterCE 5 1).calls - 1),
      (backoffOracleW k).isErr = true) ∧
    (call_with_backoff backoffOracleW backoffJitterCE 5 1).result =
      (backoffOracleW (call_with_backoff backoffOracleW backoffJitterCE 5 1).calls).value ∧
    (call_with_backoff backoffOracleW backoffJitterCE 5 1).sleeps =
      ((List.range' 1 ((call_with_backoff backoffOracleW backoffJitterCE 5 1).calls - 1)).filter
        (fun k => (backoffOracleW k).retryable)).map
          (fun k => (1 : ℚ) * 2 ^ (k - 1) + backoffJitterCE k) ∧
    ((call_with_backoff backoffOracleW backoffJitterCE 5 1).calls < 5 →
      (backoffOracleW (call_with_backoff backoffOracleW backoffJitterCE 5 1).calls).isErr =
        false)) :=
  ⟨by decide, call_with_backoff_spec backoffOracleW backoffJitterCE 5 1 (by decide)⟩

/-- C1 counterexample: with `max_attempts = 5`, a non-retryable error on
attempt 1 ("boom" contains no rate-limit keyword) does not make the function
give up and return `None`: a second call is made and its text is returned.
This refutes the claim that on a non-retryable error the function returns
`None` without any further call. -/
theorem call_with_backoff_counterexample :
    isRetryableError "boom" = false ∧
    (call_with_backoff backoffOracleCE backoffJitterCE 5 1).calls = 2 ∧
    (call_with_backoff backoffOracleCE backoffJitterCE 5 1).result = some "hi" := by
  refine ⟨by decide, ?_, ?_⟩ <;> decide

/-! ## C6 -/

/-- C6: `is_within_market_hours` returns `True` iff the current local time
lies in the inclusive `[CAPTURE_START_TIME, CAPTURE_STOP_TIME]` interval,
except that it returns `True` unconditionally when `SCHEDULE_ENABLED` is not
`'true'` (case-insensitively), when `pytz` is unavailable, or when an
exception occurs while checking: timezone lookup failure, an unparsable
start/stop time, or a parsed start/stop time out of the range that
`datetime.time` accepts. -/
theorem is_within_market_hours_spec (e : MarketHoursEnv) :
    is_within_market_hours e = true ↔
      (strLower (e.scheduleEnabled.getD "False") ≠ "true" ∨
       e.pytzAvailable = false ∨
       e.timezoneOk = false ∨
       e.startParse = none ∨ e.stopParse = none ∨
       (∃ st sp, e.startParse = some st ∧ e.stopParse = some sp ∧
         ¬(validTime st ∧ validTime sp)) ∨
       (∃ st sp, e.startParse = some st ∧ e.stopParse = some sp ∧
         timeToSec st ≤ e.currentSecOfDay ∧ e.currentSecOfDay ≤ timeToSec sp)) := by
  unfold is_within_market_hours
  by_cases hs : strLower (e.scheduleEnabled.getD "False") = "true"
  case neg => simp [hs]
  rcases hp : e.pytzAvailable with _ | _
  · simp [hs, hp]
  rcases ht : e.timezoneOk with _ | _
  · simp [hs, hp, ht]
  rcases hst : e.startParse with _ | st
  · simp [hs, hp, ht, hst]
  rcases hsp : e.stopParse with _ | sp
  · simp [hs, hp, ht, hst, hsp]
  by_cases hv : validTime st ∧ validTime sp
  · by_cases hin : timeToSec st ≤ e.currentSecOfDay ∧ e.currentSecOfDay ≤ timeToSec sp
    · simp [hs, hp, ht, hst, hsp, hv, hin]
    · simp only [hs, hp, ht, hst, hsp, if_pos hv, if_neg hin]
      constructor
      · intro hcontr
        simp at hcontr
      · intro hd
        rcases hd with hd | hd | hd | hd | hd | ⟨st2, sp2, h1, h2, hnv⟩ |
          ⟨st2, sp2, h1, h2, h3, h4⟩
        · exact absurd rfl hd
        · exact Bool.noConfusion hd
        · exact Bool.noConfusion hd
        · exact Option.noConfusion hd
        · exact Option.noConfusion hd
        · injection h1 with h1
          injection h2 with h2
          subst h1; subst h2
          exact absurd hv hnv
        · injection h1 with h1
          injection h2 with h2
          subst h1; subst h2
          exact absurd ⟨h3, h4⟩ hin
  · simp [hs, hp, ht, hst, hsp, hv]
    left
    intro hvs hvp
    exact hv ⟨hvs, hvp⟩

/-! ## C8 -/

/-- C8: `_parse_google_ai_email_decision` returns `False` on `None` or empty
input; returns `True` on any text containing an explicit YES pattern (in
particular when both a YES and a NO pattern occur, because YES patterns are
checked first); and returns `False` when no explicit pattern matches and
neither keyword heuristic (ALERT/SIGNAL with a strict bullish majority, or
WARNING/CAUTION with at least one bearish keyword) triggers. -/
theorem parse_google_ai_email_decision_spec :
    (parse_google_ai_email_decision none = false ∧
     parse_google_ai_email_decision (some "") = false) ∧
    (∀ s : String,
      yesPatterns.any (fun p => containsSub (strUpper s) p) = true →
      parse_google_ai_email_decision (some s) = true) ∧
    (∀ s : String,
      yesPatterns.any (fun p => containsSub (strUpper s) p) = false →
      noPatterns.any (fun p => containsSub (strUpper s) p) = false →
      ((containsSub (strUpper s) "ALERT" || containsSub (strUpper s) "SIGNAL") &&
        decide ((bearishKeywords.filter (fun k => containsSub (strUpper s) k)).length <
          (bullishKeywords.filter (fun k => containsSub (strUpper s) k)).length)) = false →
      ((containsSub (strUpper s) "WARNING" || containsSub (strUpper s) "CAUTION") &&
        decide (0 < (bearishKeywords.filter (fun k => containsSub (strUpper s) k)).length)) = false →
      parse_google_ai_email_decision (some s) = false) := by
  refine ⟨⟨rfl, rfl⟩, ?_, ?_⟩
  · intro s hyes
    by_cases hempty : s = ""
    · subst hempty; exact absurd hyes (by decide)
    · simp [parse_google_ai_email_decision, hempty, hyes]
  · intro s hyes hno hh1 hh2
    by_cases hempty : s = ""
    · simp [parse_google_ai_email_decision, hempty]
    · simp [parse_google_ai_email_decision, hempty, hyes, hno, hh1, hh2]

/-- Witness for `parse_google_ai_email_decision_spec`: a text containing both
an explicit YES and an explicit NO pattern yields `True`, and a text matching
nothing yields `False`. -/
theorem parse_google_ai_email_decision_spec_witness :
    (yesPatterns.any (fun p =>
        containsSub (strUpper "Email alert decision: YES. Email alert decision: NO.") p) = true ∧
      parse_google_ai_email_decision
        (some "Email alert decision: YES. Email alert decision: NO.") = true) ∧
    parse_google_ai_email_decision (some "The market is quiet today.") = false :=
  ⟨⟨by decide, parse_google_ai_email_decision_spec.2.1 _ (by decide)⟩,
    parse_google_ai_email_decision_spec.2.2 "The market is quiet today."
      (by decide) (by decide) (by decide) (by decide)⟩

/-! ## C2 -/

/-- The conditional average computed at lines 1081-1088 equals the arithmetic
mean of the collected probabilities (with the empty mean being 0). -/
theorem avgProbability_eq_arithMean (results : List (String × ProviderResult)) :
    avgProbability results = arithMean (collectProbabilities results) := by
  unfold avgProbability arithMean
  cases h : collectProbabilities results
  · simp [h]
  · simp [h]

/-- C2: the consensus `trend_change_probability` stored by
`_combine_multi_provider_results` equals the arithmetic mean of the non-None
`trend_change_probability` values of the successful providers, equals 0 when
no provider supplies one, and, when at least one provider supplies one, the
text report contains the `Average Trend Change Probability` line showing that
mean. -/
theorem combine_consensus_average (results : List (String × ProviderResult))
    (gw : Bool) (td : Option String) :
    (combineConsensus results gw).trend_change_probability =
      arithMean (collectProbabilities results) ∧
    (collectProbabilities results = [] →
      (combineConsensus results gw).trend_change_probability = 0) ∧
    (collectProbabilities results ≠ [] →
      ("Average Trend Change Probability: " ++
        fmtFixed 1 (arithMean (collectProbabilities results)) ++ "%") ∈
        textLines td results) := by
  have havg := avgProbability_eq_arithMean results
  refine ⟨?_, ?_, ?_⟩
  · unfold combineConsensus
    cases gw <;> cases h : collectAlerts results <;> simp [havg]
  · intro hnil
    unfold combineConsensus
    have h0 : avgProbability results = 0 := by simp [avgProbability, hnil]
    cases gw <;> cases h : collectAlerts results <;> simp [h0]
  · intro hne
    have hisE : (collectProbabilities results).isEmpty = false := by
      cases h : collectProbabilities results
      · exact absurd h hne
      · rfl
    rw [← havg]
    simp [textLines, hisE]

/-- Witness for `combine_consensus_average`: on `resultsW` the probability
list is `[80, 40]`, so the hypothesis of the report-line conjunct holds. -/
theorem combine_consensus_average_witness :
    collectProbabilities resultsW ≠ [] ∧
    ((combineConsensus resultsW true).trend_change_probability =
      arithMean (collectProbabilities resultsW) ∧
    (collectProbabilities resultsW = [] →
      (combineConsensus resultsW true).trend_change_probability = 0) ∧
    (collectProbabilities resultsW ≠ [] →
      ("Average Trend Change Probability: " ++
        fmtFixed 1 (arithMean (collectProbabilities resultsW)) ++ "%") ∈
        textLines none resultsW)) :=
  ⟨by decide, combine_consensus_average resultsW true none⟩

/-! ## C3 -/

/-- C3: in `_generate_local_consolidated_decision` the recommendation list
has exactly one vote per provider (alert votes first, missing providers
padded with `HOLD`; with no alerts, one vote extracted per provider), and the
consolidated decision is `BUY` exactly when `BUY` votes strictly exceed both
`SELL` and `HOLD` counts, `SELL` exactly when `SELL` votes strictly exceed
both `BUY` and `HOLD` counts, and `HOLD` in every other case. -/
theorem local_decision_spec (results : List (String × String × Option ChangeAnalysis))
    (alerts : List AlertEntry) (h : alerts.length ≤ results.length) :
    (localRecommendations results alerts).length = results.length ∧
    (alerts ≠ [] → localRecommendations results alerts =
      alerts.map voteOfAlert ++ List.replicate (results.length - alerts.length) Vote.HOLD) ∧
    (alerts = [] → localRecommendations results alerts = results.map voteOfResult) ∧
    (∀ recs : List Vote,
      (localConsensusVote recs = Vote.BUY ↔
        recs.count Vote.SELL < recs.count Vote.BUY ∧
        recs.count Vote.HOLD < recs.count Vote.BUY) ∧
      (localConsensusVote recs = Vote.SELL ↔
        recs.count Vote.BUY < recs.count Vote.SELL ∧
        recs.count Vote.HOLD < recs.count Vote.SELL) ∧
      (localConsensusVote recs = Vote.HOLD ↔
        (¬(recs.count Vote.SELL < recs.count Vote.BUY ∧
           recs.count Vote.HOLD < recs.count Vote.BUY) ∧
         ¬(recs.count Vote.BUY < recs.count Vote.SELL ∧
           recs.count Vote.HOLD < recs.count Vote.SELL)))) := by
  refine ⟨?_, ?_, ?_, ?_⟩
  · by_cases he : alerts = []
    · subst he
      simp [localRecommendations]
    · have hne : alerts.isEmpty = false := by
        cases alerts
        · exact absurd rfl he
        · rfl
      simp only [localRecommendations, hne, Bool.false_eq_true, if_false,
        List.length_append, List.length_map, List.length_replicate]
      omega
  · intro he
    have hne : alerts.isEmpty = false := by
      cases alerts
      · exact absurd rfl he
      · rfl
    simp [localRecommendations, hne]
  · intro he
    subst he
    simp [localRecommendations]
  · intro recs
    unfold localConsensusVote
    by_cases c1 : recs.count Vote.SELL < recs.count Vote.BUY ∧
        recs.count Vote.HOLD < recs.count Vote.BUY
    · simp only [if_pos c1]
      refine ⟨by simp [c1], ?_, ?_⟩
      · constructor
        · intro hEq; exact absurd hEq (by decide)
        · intro hc2; exact absurd hc2.1 (by omega)
      · constructor
        · intro hEq; exact absurd hEq (by decide)
        · intro hc; exact absurd c1 hc.1
    · simp only [if_neg c1]
      by_cases c2 : recs.count Vote.BUY < recs.count Vote.SELL ∧
          recs.count Vote.HOLD < recs.count Vote.SELL
      · simp only [if_pos c2]
        refine ⟨?_, by simp [c2], ?_⟩
        · constructor
          · intro hEq; exact absurd hEq (by decide)
          · intro hc; exact absurd hc c1
        · constructor
          · intro hEq; exact absurd hEq (by decide)
          · intro hc; exact absurd c2 hc.2
      · simp only [if_neg c2]
        refine ⟨?_, ?_, by simp [c1, c2]⟩
        · constructor
          · intro hEq; exact absurd hEq (by decide)
          · intro hc; exact absurd hc c1
        · constructor
          · intro hEq; exact absurd hEq (by decide)
          · intro hc; exact absurd hc c2

/-- Witness for `local_decision_spec` at a concrete input: one provider and
one high alert, so the hypothesis `1 ≤ 1` holds. -/
theorem local_decision_spec_witness :
    alertsW.length ≤ localResultsW.length ∧
    ((localRecommendations localResultsW alertsW).length = localResultsW.length ∧
    (alertsW ≠ [] → localRecommendations localResultsW alertsW =
      alertsW.map voteOfAlert ++
        List.replicate (localResultsW.length - alertsW.length) Vote.HOLD) ∧
    (alertsW = [] → localRecommendations localResultsW alertsW =
      localResultsW.map voteOfResult) ∧
    (∀ recs : List Vote,
      (localConsensusVote recs = Vote.BUY ↔
        recs.count Vote.SELL < recs.count Vote.BUY ∧
        recs.count Vote.HOLD < recs.count Vote.BUY) ∧
      (localConsensusVote recs = Vote.SELL ↔
        recs.count Vote.BUY < recs.count Vote.SELL ∧
        recs.count Vote.HOLD < recs.count Vote.SELL) ∧
      (localConsensusVote recs = Vote.HOLD ↔
        (¬(recs.count Vote.SELL < recs.count Vote.BUY ∧
           recs.count Vote.HOLD < recs.count Vote.BUY) ∧
         ¬(recs.count Vote.BUY < recs.count Vote.SELL ∧
           recs.count Vote.HOLD < recs.count Vote.SELL))))) :=
  ⟨by decide, local_decision_spec localResultsW alertsW (by decide)⟩

/-! ## C4 -/

/-- A string beginning with a newline is nonempty. -/
theorem newline_append_ne_empty (t : String) : ("\n" ++ t) ≠ "" := by
  intro h
  have hd : ("\n" ++ t).data = ("" : String).data := by rw [h]
  rw [String.data_append] at hd
  exact List.noConfusion hd

/-- The local consolidated decision text is never empty (it begins with a
newline). -/
theorem generateLocal_ne_empty (results : List (String × String × Option ChangeAnalysis))
    (avgProb : ℚ) (alerts : List AlertEntry) (symbol : String) :
    generateLocalConsolidatedDecision results avgProb alerts symbol ≠ "" :=
  newline_append_ne_empty (generateLocalDecisionBody results avgProb alerts symbol)

/-- C4: whenever Google AI consolidation fails with an exception, or no
(non-placeholder) Google AI API key is configured,
`_generate_consolidated_trading_decision` returns the locally computed
consolidated decision; and for every input with at least one provider result
its return value is a non-empty string (no exception propagates: the
Google-call oracle covers every exception raised while generating the Google
AI decision). -/
theorem consolidated_decision_fallback
    (results : List (String × String × Option ChangeAnalysis)) (avgProb : ℚ)
    (alerts : List AlertEntry) (symbol : String) (googleApiKey : Option String)
    (googleCall : Except String String) (hres : results ≠ []) :
    ((googleApiKey = none ∨ googleApiKey = some "" ∨
      googleApiKey = some "YOUR_GOOGLE_AI_API_KEY_HERE" ∨
      (∃ e, googleCall = .error e)) →
      generateConsolidatedTradingDecision results avgProb alerts symbol googleApiKey
          googleCall =
        generateLocalConsolidatedDecision results avgProb alerts symbol) ∧
    generateConsolidatedTradingDecision results avgProb alerts symbol googleApiKey
        googleCall ≠ "" := by
  have hne : results.isEmpty = false := by
    cases results
    · exact absurd rfl hres
    · rfl
  constructor
  · intro hd
    rcases hd with h | h | h | ⟨e, he⟩
    · subst h; simp [generateConsolidatedTradingDecision, hne]
    · subst h; simp [generateConsolidatedTradingDecision, hne]
    · subst h; simp [generateConsolidatedTradingDecision, hne]
    · subst he
      unfold generateConsolidatedTradingDecision
      simp only [hne, Bool.false_eq_true, if_false]
      cases googleApiKey with
      | none => simp
      | some k =>
        by_cases hk : (k == "" || k == "YOUR_GOOGLE_AI_API_KEY_HERE") = true
        · simp [hk]
        · simp [hk]
  · unfold generateConsolidatedTradingDecision
    simp only [hne, Bool.false_eq_true, if_false]
    cases googleApiKey with
    | none => simp only [Bool.false_eq_true, if_false]; exact generateLocal_ne_empty _ _ _ _
    | some k =>
      by_cases hk : (k == "" || k == "YOUR_GOOGLE_AI_API_KEY_HERE") = true
      · simp only [hk, Bool.not_true, Bool.false_eq_true, if_false]
        exact generateLocal_ne_empty _ _ _ _
      · have hk2 : (!(k == "" || k == "YOUR_GOOGLE_AI_API_KEY_HERE")) = true := by
          simp only [Bool.not_eq_true] at hk ⊢
          simp [hk]
        simp only [hk2, if_true]
        cases googleCall with
        | ok text => exact newline_append_ne_empty _
        | error e => exact generateLocal_ne_empty _ _ _ _

/-- Witness for `consolidated_decision_fallback`: one provider result, no API
key configured, the Google call failing; the fallback equality and
non-emptiness hold there. -/
theorem consolidated_decision_fallback_witness :
    localResultsW ≠ [] ∧
    (((none : Option String) = none ∨ (none : Option String) = some "" ∨
      (none : Option String) = some "YOUR_GOOGLE_AI_API_KEY_HERE" ∨
      (∃ e, (Except.error "rate limited" : Except String String) = .error e)) →
      generateConsolidatedTradingDecision localResultsW 80 alertsW "QBTS" none
          (Except.error "rate limited") =
        generateLocalConsolidatedDecision localResultsW 80 alertsW "QBTS") ∧
    generateConsolidatedTradingDecision localResultsW 80 alertsW "QBTS" none
        (Except.error "rate limited") ≠ "" :=
  ⟨by decide, consolidated_decision_fallback localResultsW 80 alertsW "QBTS" none
    (Except.error "rate limited") (by decide)⟩

/-! ## C5 -/

/-- `List.max?` is invariant under permutation (for rationals). -/
theorem max?_perm_eq {l₁ l₂ : List ℚ} (hp : l₁.Perm l₂) : l₁.max? = l₂.max? := by
  haveI : Std.Antisymm (fun x1 x2 : ℚ => x1 ≤ x2) := ⟨fun ha hb => le_antisymm ha hb⟩
  cases h1 : l₁.max? with
  | none =>
    rw [List.max?_eq_none_iff] at h1
    subst h1
    rw [List.max?_eq_none_iff.mpr (List.perm_nil.mp hp.symm)]
  | some a =>
    rw [List.max?_eq_some_iff (fun a => le_refl a) max_choice
      (fun a b c => max_le_iff)] at h1
    symm
    rw [List.max?_eq_some_iff (fun a => le_refl a) max_choice (fun a b c => max_le_iff)]
    exact ⟨hp.mem_iff.mp h1.1, fun b hb => h1.2 b (hp.mem_iff.mpr hb)⟩

/-- `List.min?` is invariant under permutation (for rationals). -/
theorem min?_perm_eq {l₁ l₂ : List ℚ} (hp : l₁.Perm l₂) : l₁.min? = l₂.min? := by
  haveI : Std.Antisymm (fun x1 x2 : ℚ => x1 ≤ x2) := ⟨fun ha hb => le_antisymm ha hb⟩
  cases h1 : l₁.min? with
  | none =>
    rw [List.min?_eq_none_iff] at h1
    subst h1
    rw [List.min?_eq_none_iff.mpr (List.perm_nil.mp hp.symm)]
  | some a =>
    rw [List.min?_eq_some_iff (fun a => le_refl a) min_choice
      (fun a b c => le_min_iff)] at h1
    symm
    rw [List.min?_eq_some_iff (fun a => le_refl a) min_choice (fun a b c => le_min_iff)]
    exact ⟨hp.mem_iff.mp h1.1, fun b hb => h1.2 b (hp.mem_iff.mpr hb)⟩

/-- `maxProbability` written through `List.max?`. -/
theorem maxProbability_eq_max? (results : List (String × ProviderResult)) :
    maxProbability results = ((collectProbabilities results).max?).getD 0 := by
  unfold maxProbability
  cases h : collectProbabilities results <;> simp [List.max?]

/-- `minProbability` written through `List.min?`. -/
theorem minProbability_eq_min? (results : List (String × ProviderResult)) :
    minProbability results = ((collectProbabilities results).min?).getD 0 := by
  unfold minProbability
  cases h : collectProbabilities results <;> simp [List.min?]

/-- C5 (amended): for two completion orders of the same set of provider
results, the consensus statistics are identical: average, minimum and maximum
trend-change probability, and every field of the consensus `change_analysis`
except `alert_level` and `summary` (which, like the section order of the
report for providers outside the fixed `claude`/`perplexity`/`google` order
and the alert listing, can depend on the completion order). -/
theorem combine_consensus_order_invariant (r₁ r₂ : List (String × ProviderResult))
    (gw : Bool) (hperm : r₁.Perm r₂) :
    avgProbability r₁ = avgProbability r₂ ∧
    minProbability r₁ = minProbability r₂ ∧
    maxProbability r₁ = maxProbability r₂ ∧
    (combineConsensus r₁ gw).has_changes = (combineConsensus r₂ gw).has_changes ∧
    (combineConsensus r₁ gw).trend_change_probability =
      (combineConsensus r₂ gw).trend_change_probability ∧
    (combineConsensus r₁ gw).confidence_level =
      (combineConsensus r₂ gw).confidence_level ∧
    (combineConsensus r₁ gw).provider_count = (combineConsensus r₂ gw).provider_count ∧
    (combineConsensus r₁ gw).provider_agreement =
      (combineConsensus r₂ gw).provider_agreement ∧
    (combineConsensus r₁ gw).google_ai_decision =
      (combineConsensus r₂ gw).google_ai_decision := by
  have hprobs : (collectProbabilities r₁).Perm (collectProbabilities r₂) :=
    hperm.filterMap _
  have halerts : (collectAlerts r₁).Perm (collectAlerts r₂) := hperm.filterMap _
  have havg : avgProbability r₁ = avgProbability r₂ := by
    rw [avgProbability_eq_arithMean, avgProbability_eq_arithMean]
    unfold arithMean
    rw [hprobs.sum_eq, hprobs.length_eq]
  have hlen : r₁.length = r₂.length := hperm.length_eq
  have halen : (collectAlerts r₁).length = (collectAlerts r₂).length := halerts.length_eq
  refine ⟨havg, ?_, ?_, ?_⟩
  · rw [minProbability_eq_min?, minProbability_eq_min?, min?_perm_eq hprobs]
  · rw [maxProbability_eq_max?, maxProbability_eq_max?, max?_perm_eq hprobs]
  · cases h1 : collectAlerts r₁ with
    | nil =>
      have h2 : collectAlerts r₂ = [] := by
        rw [h1] at halerts
        exact List.perm_nil.mp halerts.symm
      cases gw <;> simp [combineConsensus, h1, h2, havg, hlen]
    | cons a rest =>
      have h2x : ∃ b rest2, collectAlerts r₂ = b :: rest2 := by
        cases hx : collectAlerts r₂
        · exfalso
          rw [h1, hx] at halerts
          exact List.noConfusion (List.perm_nil.mp halerts)
        · exact ⟨_, _, rfl⟩
      obtain ⟨b, rest2, hx⟩ := h2x
      have hlen2 : (a :: rest).length = (b :: rest2).length := by
        rw [← h1, ← hx]; exact halen
      have hlen2x : rest.length = rest2.length := by simpa using hlen2
      cases gw <;> simp [combineConsensus, h1, hx, havg, hlen, hlen2x]

/-- Witness for `combine_consensus_order_invariant` at the two concrete
completion orders `resultsCE1` / `resultsCE2`. -/
theorem combine_consensus_order_invariant_witness :
    resultsCE1.Perm resultsCE2 ∧
    (avgProbability resultsCE1 = avgProbability resultsCE2 ∧
    minProbability resultsCE1 = minProbability resultsCE2 ∧
    maxProbability resultsCE1 = maxProbability resultsCE2 ∧
    (combineConsensus resultsCE1 false).has_changes =
      (combineConsensus resultsCE2 false).has_changes ∧
    (combineConsensus resultsCE1 false).trend_change_probability =
      (combineConsensus resultsCE2 false).trend_change_probability ∧
    (combineConsensus resultsCE1 false).confidence_level =
      (combineConsensus resultsCE2 false).confidence_level ∧
    (combineConsensus resultsCE1 false).provider_count =
      (combineConsensus resultsCE2 false).provider_count ∧
    (combineConsensus resultsCE1 false).provider_agreement =
      (combineConsensus resultsCE2 false).provider_agreement ∧
    (combineConsensus resultsCE1 false).google_ai_decision =
      (combineConsensus resultsCE2 false).google_ai_decision) :=
  ⟨by decide, combine_consensus_order_invariant resultsCE1 resultsCE2 false (by decide)⟩

/-- C5 counterexample: `resultsCE1` and `resultsCE2` hold the same set of
per-provider results (they are permutations of each other: only the future
completion order differs), yet `_combine_multi_provider_results` produces
different combined text reports, because providers outside the fixed
`claude`/`perplexity`/`google` order are emitted in completion order.  This
refutes the claim that the combined text report is the same for every
completion order. -/
theorem combine_multi_order_counterexample :
    resultsCE1.Perm resultsCE2 ∧
    (combineMulti false none (Except.error "unused") resultsCE1 "QBTS").1 ≠
      (combineMulti false none (Except.error "unused") resultsCE2 "QBTS").1 := by
  constructor
  · decide
  · decide

/-! ## C7 -/

/-- C7: the combined text report is always written to
`combined_analysis_latest.txt` and the multi-provider report to
`multi_provider_analysis.html`, both opened in `'w'` mode, at paths that do
not depend on the run's timestamp or on the written content: two runs over
the same configuration write the same paths, so the previous report is
replaced and no files accumulate. -/
theorem report_paths_fixed (screenshotData : List (String × Option String))
    (outputDir : Option String) (existsF : String → Bool)
    (dirnameF basenameF : String → String) (analysis₁ analysis₂ : String)
    (ca₁ ca₂ : Option ChangeAnalysis) (now₁ now₂ : String)
    (screenshotsDir symbol html₁ html₂ : String) :
    (save_combined_analysis_report screenshotData analysis₁ outputDir ca₁ now₁
        existsF dirnameF basenameF).path =
      (save_combined_analysis_report screenshotData analysis₂ outputDir ca₂ now₂
        existsF dirnameF basenameF).path ∧
    (save_combined_analysis_report screenshotData analysis₁ outputDir ca₁ now₁
        existsF dirnameF basenameF).mode = "w" ∧
    (save_combined_analysis_report screenshotData analysis₁ outputDir ca₁ now₁
        existsF dirnameF basenameF).path =
      joinPath (reportOutputDir screenshotData outputDir existsF dirnameF)
        "combined_analysis_latest.txt" ∧
    (multiProviderReportWrite screenshotsDir symbol html₁).path =
      (multiProviderReportWrite screenshotsDir symbol html₂).path ∧
    (multiProviderReportWrite screenshotsDir symbol html₁).mode = "w" ∧
    (multiProviderReportWrite screenshotsDir symbol html₁).path =
      joinPath (joinPath screenshotsDir symbol) "multi_provider_analysis.html" :=
  ⟨rfl, rfl, rfl, rfl, rfl, rfl⟩

/-! ## C10 -/

/-- Decoding a base64 digit recovers its 6-bit value. -/
theorem b64Index_b64Char : ∀ n, n < 64 → b64Index (b64Char n) = some n := by decide

/-- A base64 digit is never the padding character. -/
theorem b64Char_ne_pad : ∀ n, n < 64 → b64Char n ≠ '=' := by decide

/-- Base64 round-trip: decoding the encoding of any byte list gives back the
bytes. -/
theorem b64_roundtrip : ∀ (bytes : List Nat), (∀ b ∈ bytes, b < 256) →
    b64DecodeAux (b64EncodeChunks bytes) = some bytes := by
  intro bytes
  induction bytes using b64EncodeChunks.induct with
  | case1 b1 b2 b3 rest ih =>
    intro hb
    have h1 : b1 < 256 := hb b1 (by simp)
    have h2 : b2 < 256 := hb b2 (by simp)
    have h3 : b3 < 256 := hb b3 (by simp)
    have hrest : ∀ b ∈ rest, b < 256 := fun b hbm => hb b (by simp [hbm])
    have htail := ih hrest
    have e1 : (b1 * 65536 + b2 * 256 + b3) / 262144 < 64 := by omega
    have e2 : (b1 * 65536 + b2 * 256 + b3) / 4096 % 64 < 64 := by omega
    have e3 : (b1 * 65536 + b2 * 256 + b3) / 64 % 64 < 64 := by omega
    have e4 : (b1 * 65536 + b2 * 256 + b3) % 64 < 64 := by omega
    have n3 : b64Char ((b1 * 65536 + b2 * 256 + b3) / 64 % 64) ≠ '=' :=
      b64Char_ne_pad _ e3
    have n4 : b64Char ((b1 * 65536 + b2 * 256 + b3) % 64) ≠ '=' :=
      b64Char_ne_pad _ e4
    simp only [b64EncodeChunks, b64DecodeAux, b64Index_b64Char _ e1,
      b64Index_b64Char _ e2, b64Index_b64Char _ e3, b64Index_b64Char _ e4,
      htail, if_neg n3, if_neg n4]
    have hx1 : (((b1 * 65536 + b2 * 256 + b3) / 262144 * 64 +
        (b1 * 65536 + b2 * 256 + b3) / 4096 % 64) * 64 +
        (b1 * 65536 + b2 * 256 + b3) / 64 % 64) * 64 +
        (b1 * 65536 + b2 * 256 + b3) % 64 = b1 * 65536 + b2 * 256 + b3 := by omega
    rw [hx1]
    have v1 : (b1 * 65536 + b2 * 256 + b3) / 65536 = b1 := by omega
    have v2 : (b1 * 65536 + b2 * 256 + b3) / 256 % 256 = b2 := by omega
    have v3 : (b1 * 65536 + b2 * 256 + b3) % 256 = b3 := by omega
    rw [v1, v2, v3]
  | case2 b1 b2 =>
    intro hb
    have h1 : b1 < 256 := hb b1 (by simp)
    have h2 : b2 < 256 := hb b2 (by simp)
    have e1 : (b1 * 1024 + b2 * 4) / 4096 < 64 := by omega
    have e2 : (b1 * 1024 + b2 * 4) / 64 % 64 < 64 := by omega
    have e3 : (b1 * 1024 + b2 * 4) % 64 < 64 := by omega
    have n3 : b64Char ((b1 * 1024 + b2 * 4) % 64) ≠ '=' := b64Char_ne_pad _ e3
    simp only [b64EncodeChunks, b64DecodeAux, b64Index_b64Char _ e1,
      b64Index_b64Char _ e2, b64Index_b64Char _ e3, if_neg n3, if_pos rfl,
      and_self, if_pos]
    have hx1 : ((b1 * 1024 + b2 * 4) / 4096 * 64 +
        (b1 * 1024 + b2 * 4) / 64 % 64) * 64 + (b1 * 1024 + b2 * 4) % 64 =
        b1 * 1024 + b2 * 4 := by omega
    rw [hx1]
    have hm : (b1 * 1024 + b2 * 4) % 4 = 0 := by omega
    rw [if_pos hm]
    have v1 : (b1 * 1024 + b2 * 4) / 1024 = b1 := by omega
    have v2 : (b1 * 1024 + b2 * 4) / 4 % 256 = b2 := by omega
    rw [v1, v2]
  | case3 b1 =>
    intro hb
    have h1 : b1 < 256 := hb b1 (by simp)
    have e1 : b1 * 16 / 64 < 64 := by omega
    have e2 : b1 * 16 % 64 < 64 := by omega
    simp only [b64EncodeChunks, b64DecodeAux, b64Index_b64Char _ e1,
      b64Index_b64Char _ e2, if_pos rfl, and_self, if_pos]
    have hx1 : b1 * 16 / 64 * 64 + b1 * 16 % 64 = b1 * 16 := by omega
    rw [hx1]
    have hm : b1 * 16 % 16 = 0 := by omega
    rw [if_pos hm]
    have v1 : b1 * 16 / 16 = b1 := by omega
    rw [v1]
  | case4 =>
    intro _
    rfl

/-- C10: `encode_image_to_base64` fails with `FileNotFoundError` exactly when
the path does not exist; otherwise it returns
`data:<mime>;base64,<payload>` where the MIME type is chosen from the file
extension (defaulting to `image/png`) and base64-decoding the payload yields
exactly the file's bytes. -/
theorem encode_image_to_base64_spec (fs : FileSystem) (path : String)
    (hb : ∀ b ∈ fs.content path, b < 256) :
    (fs.fileExists path = false →
      encode_image_to_base64 fs path =
        .error ("Image file not found: " ++ path)) ∧
    (fs.fileExists path = true →
      encode_image_to_base64 fs path =
        .ok ("data:" ++ mimeForExt (strLower (pySplitextExt path)) ++ ";base64," ++
          String.mk (b64EncodeChunks (fs.content path))) ∧
      b64DecodeAux (b64EncodeChunks (fs.content path)) = some (fs.content path)) := by
  constructor
  · intro h
    simp [encode_image_to_base64, h]
  · intro h
    exact ⟨by simp [encode_image_to_base64, h], b64_roundtrip _ hb⟩

/-- Witness for `encode_image_to_base64_spec` on the concrete file system
`fsW` and path `chart.png`. -/
theorem encode_image_to_base64_spec_witness :
    (∀ b ∈ fsW.content "chart.png", b < 256) ∧
    ((fsW.fileExists "chart.png" = false →
      encode_image_to_base64 fsW "chart.png" =
        .error ("Image file not found: " ++ "chart.png")) ∧
    (fsW.fileExists "chart.png" = true →
      encode_image_to_base64 fsW "chart.png" =
        .ok ("data:" ++ mimeForExt (strLower (pySplitextExt "chart.png")) ++
          ";base64," ++ String.mk (b64EncodeChunks (fsW.content "chart.png"))) ∧
      b64DecodeAux (b64EncodeChunks (fsW.content "chart.png")) =
        some (fsW.content "chart.png"))) :=
  ⟨by decide, encode_image_to_base64_spec fsW "chart.png" (by decide)⟩

/-! ## C9 -/

/-- `tryKey` fails exactly when no match starts at the head. -/
theorem tryKey_none_iff (K : KeyPat) (s : List Char) :
    tryKey K s = none ↔ ¬ keyMatches K s := by
  unfold tryKey keyMatches
  cases hl : litHeadMatch K.lit s
  · simp
  · simp only [if_true]
    cases hd : s.drop K.lit.length with
    | nil => simp [hd]
    | cons c rest =>
      cases hc : K.cls c
      · simp only [hd, List.takeWhile_cons, hc, if_neg]
        simp [hc]
      · simp only [hd, List.takeWhile_cons, hc]
        simp [hc]

/-- A head literal match extends along an appended suffix. -/
theorem litHeadMatch_append_left : ∀ (lit x y : List Char),
    litHeadMatch lit x = true → litHeadMatch lit (x ++ y) = true := by
  intro lit
  induction lit with
  | nil => intro x y _; rfl
  | cons a l ih =>
    intro x y h
    cases x with
    | nil => exact absurd h (by simp [litHeadMatch])
    | cons b x2 =>
      simp only [litHeadMatch, Bool.and_eq_true] at h
      simp only [List.cons_append, litHeadMatch, Bool.and_eq_true]
      exact ⟨h.1, ih x2 y h.2⟩

/-- A head literal match consumes at most the whole string. -/
theorem litHeadMatch_length_le : ∀ (lit x : List Char),
    litHeadMatch lit x = true → lit.length ≤ x.length := by
  intro lit
  induction lit with
  | nil => intro x _; simp
  | cons a l ih =>
    intro x h
    cases x with
    | nil => exact absurd h (by simp [litHeadMatch])
    | cons b x2 =>
      simp only [litHeadMatch, Bool.and_eq_true] at h
      have := ih x2 h.2
      simp only [List.length_cons]
      omega

/-- If the literal contains no bracket, a head match on `x ++ '[' :: r`
already lies inside `x`. -/
theorem litHeadMatch_of_append_bracket : ∀ (lit x r : List Char),
    (∀ a ∈ lit, charIEq a '[' = false) →
    litHeadMatch lit (x ++ '[' :: r) = true →
    litHeadMatch lit x = true ∧ lit.length ≤ x.length := by
  intro lit
  induction lit with
  | nil => intro x r _ _; exact ⟨rfl, by simp⟩
  | cons a l ih =>
    intro x r hB hm
    cases x with
    | nil =>
      simp only [List.nil_append, litHeadMatch, Bool.and_eq_true] at hm
      exact absurd hm.1 (by simp [hB a (by simp)])
    | cons b x2 =>
      simp only [List.cons_append, litHeadMatch, Bool.and_eq_true] at hm
      obtain ⟨hr1, hr2⟩ := ih x2 r (fun c hc => hB c (by simp [hc])) hm.2
      refine ⟨?_, ?_⟩
      · simp only [litHeadMatch, Bool.and_eq_true]
        exact ⟨hm.1, hr1⟩
      · simp only [List.length_cons]
        omega

/-- A match at the head survives appending a suffix. -/
theorem keyMatches_append_right (K : KeyPat) (x y : List Char)
    (h : keyMatches K x) : keyMatches K (x ++ y) := by
  obtain ⟨hlit, c, rest, hdrop, hcls⟩ := h
  refine ⟨litHeadMatch_append_left _ _ _ hlit, c, rest ++ y, ?_, hcls⟩
  rw [List.drop_append_of_le_length (litHeadMatch_length_le _ _ hlit), hdrop]
  rfl

/-- Bracket barrier: a pattern whose literal and class exclude `'['` cannot
match across the start of a `'['`; a head match on `x ++ '[' :: r` restricts
to a head match on `x`. -/
theorem keyMatches_of_append_bracket (K : KeyPat)
    (hlit : ∀ a ∈ K.lit, charIEq a '[' = false) (hcls : K.cls '[' = false)
    (x r : List Char) (h : keyMatches K (x ++ '[' :: r)) : keyMatches K x := by
  obtain ⟨hm, c, rest, hdrop, hc⟩ := h
  obtain ⟨hm2, hlen⟩ := litHeadMatch_of_append_bracket K.lit x r hlit hm
  rw [List.drop_append_of_le_length hlen] at hdrop
  cases hxd : x.drop K.lit.length with
  | nil =>
    rw [hxd] at hdrop
    simp only [List.nil_append, List.cons.injEq] at hdrop
    rw [hdrop.1] at hcls
    rw [hcls] at hc
    exact Bool.noConfusion hc
  | cons c0 rest0 =>
    rw [hxd] at hdrop
    simp only [List.cons_append, List.cons.injEq] at hdrop
    refine ⟨hm2, c0, rest0, hxd, ?_⟩
    rw [hdrop.1]
    exact hc

/-- Structure of `subRedact` output: either the input is returned unchanged,
or the output is an unchanged prefix of the input followed by a `'['`. -/
theorem subRedact_shape (try2 : List Char → Option Nat) :
    ∀ s : List Char, subRedact try2 s = s ∨
      ∃ n r, n ≤ s.length ∧ subRedact try2 s = s.take n ++ '[' :: r := by
  intro s
  induction s with
  | nil => left; simp [subRedact]
  | cons c rest ih =>
    rw [subRedact]
    cases htry : try2 (c :: rest) with
    | some n =>
      right
      refine ⟨0, ("REDACTED]").data ++ subRedact try2 ((c :: rest).drop (max n 1)),
        by simp, ?_⟩
      simp [redactedChars]
    | none =>
      rcases ih with h | ⟨n, r, hn, h⟩
      · left; rw [h]
      · right
        refine ⟨n + 1, r, by simp; omega, ?_⟩
        simp only [List.take_succ_cons, List.cons_append, h]

/-- Transport of head-match failure along the `subRedact` output shape. -/
theorem tryKey_none_of_shape (K : KeyPat)
    (hlit : ∀ a ∈ K.lit, charIEq a '[' = false) (hcls : K.cls '[' = false)
    (w v : List Char)
    (hshape : v = w ∨ ∃ n r, n ≤ w.length ∧ v = w.take n ++ '[' :: r)
    (hw : tryKey K w = none) : tryKey K v = none := by
  rcases hshape with h | ⟨n, r, hn, h⟩
  · rw [h]; exact hw
  · rw [tryKey_none_iff] at hw ⊢
    intro hv
    apply hw
    rw [h] at hv
    have h1 : keyMatches K (w.take n) :=
      keyMatches_of_append_bracket K hlit hcls _ _ hv
    have h2 : keyMatches K (w.take n ++ w.drop n) :=
      keyMatches_append_right K _ _ h1
    rw [List.take_append_drop] at h2
    exact h2

/-- With a non-empty literal, nothing matches at the head of the empty
string. -/
theorem tryKey_nil (K : KeyPat) (hne : K.lit ≠ []) : tryKey K [] = none := by
  unfold tryKey
  cases hl : K.lit with
  | nil => exact absurd hl hne
  | cons a l =>
    simp [litHeadMatch]

/-- The empty string is clean. -/
theorem keyClean_nil (K : KeyPat) (hne : K.lit ≠ []) : keyClean K [] := by
  intro i
  simp only [List.drop_nil]
  exact tryKey_nil K hne

/-- Cleanliness is preserved by dropping a prefix. -/
theorem keyClean_drop (K : KeyPat) (s : List Char) (m : Nat)
    (h : keyClean K s) : keyClean K (s.drop m) := by
  intro i
  rw [List.drop_drop]
  exact h (m + i)

/-- A mismatch within `l` kills the head literal match on `l ++ u` for every
`u`. -/
theorem litHeadMatch_eq_false_of_mismatch : ∀ (lit l u : List Char),
    hasMismatch lit l = true → litHeadMatch lit (l ++ u) = false := by
  intro lit
  induction lit with
  | nil => intro l u h; exact absurd h (by simp [hasMismatch])
  | cons a t ih =>
    intro l u h
    cases l with
    | nil => exact absurd h (by simp [hasMismatch])
    | cons b l2 =>
      simp only [hasMismatch, Bool.or_eq_true, Bool.not_eq_eq_eq_not, Bool.not_true] at h
      simp only [List.cons_append, litHeadMatch, Bool.and_eq_false_iff]
      rcases h with h | h
      · left; simp [h]
      · right; exact ih l2 u h

/-- No match starts strictly inside the replacement text `[REDACTED]`,
whatever follows it. -/
theorem tryKey_redacted_drop (K : KeyPat)
    (hm : ∀ i, i < 10 → hasMismatch K.lit (redactedChars.drop i) = true) :
    ∀ i u, i < 10 → tryKey K ((redactedChars.drop i) ++ u) = none := by
  intro i u hi
  unfold tryKey
  rw [litHeadMatch_eq_false_of_mismatch _ _ _ (hm i hi)]
  simp

/-- Prepending `[REDACTED]` to a clean string keeps it clean. -/
theorem keyClean_redacted_append (K : KeyPat)
    (hm : ∀ i, i < 10 → hasMismatch K.lit (redactedChars.drop i) = true)
    (out : List Char) (hout : keyClean K out) :
    keyClean K (redactedChars ++ out) := by
  intro i
  by_cases hi : i < 10
  · rw [List.drop_append_of_le_length (by simp [redactedChars]; omega)]
    exact tryKey_redacted_drop K hm i out hi
  · have hlen : redactedChars.length = 10 := by simp [redactedChars]
    rw [List.drop_append_eq_append_drop]
    rw [List.drop_eq_nil_of_le (by omega), hlen]
    simp only [List.nil_append]
    exact hout (i - 10)

/-- Establishment: one `re.sub` pass with a key pattern leaves no match of
that pattern in its output, for every input. -/
theorem keyClean_subRedact_establish (K : KeyPat) (hne : K.lit ≠ [])
    (hlit : ∀ a ∈ K.lit, charIEq a '[' = false) (hcls : K.cls '[' = false)
    (hm : ∀ i, i < 10 → hasMismatch K.lit (redactedChars.drop i) = true) :
    ∀ fuel s, s.length ≤ fuel → keyClean K (subRedact (tryKey K) s) := by
  intro fuel
  induction fuel with
  | zero =>
    intro s hs
    have : s = [] := by
      cases s
      · rfl
      · simp at hs
    subst this
    rw [show subRedact (tryKey K) [] = [] from by simp [subRedact]]
    exact keyClean_nil K hne
  | succ f ih =>
    intro s hs
    cases s with
    | nil =>
      rw [show subRedact (tryKey K) [] = [] from by simp [subRedact]]
      exact keyClean_nil K hne
    | cons c rest =>
      rw [subRedact]
      cases htry : tryKey K (c :: rest) with
      | some n =>
        have hout : keyClean K (subRedact (tryKey K) ((c :: rest).drop (max n 1))) := by
          apply ih
          simp only [List.length_drop, List.length_cons]
          simp only [List.length_cons] at hs
          omega
        exact keyClean_redacted_append K hm _ hout
      | none =>
        have hout : keyClean K (subRedact (tryKey K) rest) := by
          apply ih
          simp only [List.length_cons] at hs
          omega
        intro i
        cases i with
        | zero =>
          simp only [List.drop_zero]
          apply tryKey_none_of_shape K hlit hcls (c :: rest)
          · rcases subRedact_shape (tryKey K) rest with h | ⟨n, r, hn, h⟩
            · left; rw [h]
            · right
              refine ⟨n + 1, r, by simp; omega, ?_⟩
              simp only [List.take_succ_cons, List.cons_append, h]
          · exact htry
        | succ j =>
          simp only [List.drop_succ_cons]
          exact hout j

/-- Preservation: one `re.sub` pass with any matcher keeps a clean input
clean, because the pass only removes text and inserts `[REDACTED]`
blocks. -/
theorem keyClean_subRedact_preserve (K : KeyPat)
    (try2 : List Char → Option Nat) (hne : K.lit ≠ [])
    (hlit : ∀ a ∈ K.lit, charIEq a '[' = false) (hcls : K.cls '[' = false)
    (hm : ∀ i, i < 10 → hasMismatch K.lit (redactedChars.drop i) = true) :
    ∀ fuel s, s.length ≤ fuel → keyClean K s → keyClean K (subRedact try2 s) := by
  intro fuel
  induction fuel with
  | zero =>
    intro s hs _
    have : s = [] := by
      cases s
      · rfl
      · simp at hs
    subst this
    rw [show subRedact try2 [] = [] from by simp [subRedact]]
    exact keyClean_nil K hne
  | succ f ih =>
    intro s hs hclean
    cases s with
    | nil =>
      rw [show subRedact try2 [] = [] from by simp [subRedact]]
      exact keyClean_nil K hne
    | cons c rest =>
      rw [subRedact]
      cases htry : try2 (c :: rest) with
      | some n =>
        have hout : keyClean K (subRedact try2 ((c :: rest).drop (max n 1))) := by
          apply ih
          · simp only [List.length_drop, List.length_cons]
            simp only [List.length_cons] at hs
            omega
          · exact keyClean_drop K _ _ hclean
        exact keyClean_redacted_append K hm _ hout
      | none =>
        have hout : keyClean K (subRedact try2 rest) := by
          apply ih
          · simp only [List.length_cons] at hs
            omega
          · have := keyClean_drop K (c :: rest) 1 hclean
            simpa using this
        intro i
        cases i with
        | zero =>
          simp only [List.drop_zero]
          apply tryKey_none_of_shape K hlit hcls (c :: rest)
          · rcases subRedact_shape try2 rest with h | ⟨n, r, hn, h⟩
            · left; rw [h]
            · right
              refine ⟨n + 1, r, by simp; omega, ?_⟩
              simp only [List.take_succ_cons, List.cons_append, h]
          · have := hclean 0
            simpa using this
        | succ j =>
          simp only [List.drop_succ_cons]
          exact hout j

/-- C9: for every input string, the output of `sanitize_for_logging` with
the default patterns contains no substring matching `pplx-[a-zA-Z0-9]+`,
`sk-ant-[a-zA-Z0-9\-]+` or `AIza[a-zA-Z0-9\-_]+` (case-insensitively): each
pass redacts every occurrence of its pattern, and the later sequential
substitutions cannot reintroduce a match because they only remove text and
insert `[REDACTED]` blocks. -/
theorem sanitize_for_logging_no_api_keys (s : String) (i : Nat) :
    tryKey pplxPat (((sanitize_for_logging s).data).drop i) = none ∧
    tryKey skAntPat (((sanitize_for_logging s).data).drop i) = none ∧
    tryKey aizaPat (((sanitize_for_logging s).data).drop i) = none := by
  have hp1 : pplxPat.lit ≠ [] := by decide
  have hp2 : ∀ a ∈ pplxPat.lit, charIEq a '[' = false := by decide
  have hp3 : pplxPat.cls '[' = false := by decide
  have hp4 : ∀ j, j < 10 → hasMismatch pplxPat.lit (redactedChars.drop j) = true := by
    decide
  have hk1 : skAntPat.lit ≠ [] := by decide
  have hk2 : ∀ a ∈ skAntPat.lit, charIEq a '[' = false := by decide
  have hk3 : skAntPat.cls '[' = false := by decide
  have hk4 : ∀ j, j < 10 → hasMismatch skAntPat.lit (redactedChars.drop j) = true := by
    decide
  have hz1 : aizaPat.lit ≠ [] := by decide
  have hz2 : ∀ a ∈ aizaPat.lit, charIEq a '[' = false := by decide
  have hz3 : aizaPat.cls '[' = false := by decide
  have hz4 : ∀ j, j < 10 → hasMismatch aizaPat.lit (redactedChars.drop j) = true := by
    decide
  by_cases hs : s = ""
  · subst hs
    have he : (sanitize_for_logging "").data = [] := rfl
    rw [he, List.drop_nil]
    exact ⟨tryKey_nil _ hp1, tryKey_nil _ hk1, tryKey_nil _ hz1⟩
  · have hdata : (sanitize_for_logging s).data =
        subRedact tryApiKey (subRedact tryPassword (subRedact (tryKey aizaPat)
          (subRedact (tryKey skAntPat) (subRedact (tryKey pplxPat) s.data)))) := by
      simp [sanitize_for_logging, hs]
    have c1 : keyClean pplxPat (subRedact (tryKey pplxPat) s.data) :=
      keyClean_subRedact_establish pplxPat hp1 hp2 hp3 hp4 s.data.length s.data le_rfl
    have c1b : keyClean pplxPat (subRedact (tryKey skAntPat)
        (subRedact (tryKey pplxPat) s.data)) :=
      keyClean_subRedact_preserve pplxPat (tryKey skAntPat) hp1 hp2 hp3 hp4 _ _ le_rfl c1
    have c2 : keyClean skAntPat (subRedact (tryKey skAntPat)
        (subRedact (tryKey pplxPat) s.data)) :=
      keyClean_subRedact_establish skAntPat hk1 hk2 hk3 hk4 _ _ le_rfl
    have c1c : keyClean pplxPat (subRedact (tryKey aizaPat) (subRedact (tryKey skAntPat)
        (subRedact (tryKey pplxPat) s.data))) :=
      keyClean_subRedact_preserve pplxPat (tryKey aizaPat) hp1 hp2 hp3 hp4 _ _ le_rfl c1b
    have c2c : keyClean skAntPat (subRedact (tryKey aizaPat) (subRedact (tryKey skAntPat)
        (subRedact (tryKey pplxPat) s.data))) :=
      keyClean_subRedact_preserve skAntPat (tryKey aizaPat) hk1 hk2 hk3 hk4 _ _ le_rfl c2
    have c3 : keyClean aizaPat (subRedact (tryKey aizaPat) (subRedact (tryKey skAntPat)
        (subRedact (tryKey pplxPat) s.data))) :=
      keyClean_subRedact_establish aizaPat hz1 hz2 hz3 hz4 _ _ le_rfl
    have c1d : keyClean pplxPat (subRedact tryPassword (subRedact (tryKey aizaPat)
        (subRedact (tryKey skAntPat) (subRedact (tryKey pplxPat) s.data)))) :=
      keyClean_subRedact_preserve pplxPat tryPassword hp1 hp2 hp3 hp4 _ _ le_rfl c1c
    have c2d : keyClean skAntPat (subRedact tryPassword (subRedact (tryKey aizaPat)
        (subRedact (tryKey skAntPat) (subRedact (tryKey pplxPat) s.data)))) :=
      keyClean_subRedact_preserve skAntPat tryPassword hk1 hk2 hk3 hk4 _ _ le_rfl c2c
    have c3d : keyClean aizaPat (subRedact tryPassword (subRedact (tryKey aizaPat)
        (subRedact (tryKey skAntPat) (subRedact (tryKey pplxPat) s.data)))) :=
      keyClean_subRedact_preserve aizaPat tryPassword hz1 hz2 hz3 hz4 _ _ le_rfl c3
    have c1e : keyClean pplxPat (subRedact tryApiKey (subRedact tryPassword
        (subRedact (tryKey aizaPat) (subRedact (tryKey skAntPat)
          (subRedact (tryKey pplxPat) s.data))))) :=
      keyClean_subRedact_preserve pplxPat tryApiKey hp1 hp2 hp3 hp4 _ _ le_rfl c1d
    have c2e : keyClean skAntPat (subRedact tryApiKey (subRedact tryPassword
        (subRedact (tryKey aizaPat) (subRedact (tryKey skAntPat)
          (subRedact (tryKey pplxPat) s.data))))) :=
      keyClean_subRedact_preserve skAntPat tryApiKey hk1 hk2 hk3 hk4 _ _ le_rfl c2d
    have c3e : keyClean aizaPat (subRedact tryApiKey (subRedact tryPassword
        (subRedact (tryKey aizaPat) (subRedact (tryKey skAntPat)
          (subRedact (tryKey pplxPat) s.data))))) :=
      keyClean_subRedact_preserve aizaPat tryApiKey hz1 hz2 hz3 hz4 _ _ le_rfl c3d
    rw [hdata]
    exact ⟨c1e i, c2e i, c3e i⟩
